import Mathlib

/-
  Verification development for the deepdrive-api remote procedure protocol
  (src/deepdrive_api/client.py, src/deepdrive_api/server.py,
  src/deepdrive_api/constants.py).

  The Python values travelling over the wire are modelled by the mutual
  inductive `Value`/`VList`/`VEntries` below: dicts are association lists of
  string keys (Python dict keys in these code paths are strings), lists and
  tuples keep their elements, numpy arrays (`varr`) are atomic for the
  substitution pass (server.py:301-303 only recurses into dict/list/tuple),
  and `vobj t` stands for an object of an unserializable runtime type whose
  `str(type(v))` is `t`.
-/

namespace DeepdriveApi

mutual

inductive Value where
  | vnone : Value
  | vint : Int → Value
  | vfloat : ℚ → Value
  | vbool : Bool → Value
  | vstr : String → Value
  | varr : VList → Value
  | vlist : VList → Value
  | vtuple : VList → Value
  | vdict : VEntries → Value
  | vobj : String → Value

inductive VList where
  | nil : VList
  | cons : Value → VList → VList

inductive VEntries where
  | nil : VEntries
  | cons : String → Value → VEntries → VEntries

end

/-- `str(type(v))` for each modelled Python value. -/
def typeName : Value → String
  | .vnone => "<class 'NoneType'>"
  | .vint _ => "<class 'int'>"
  | .vfloat _ => "<class 'float'>"
  | .vbool _ => "<class 'bool'>"
  | .vstr _ => "<class 'str'>"
  | .varr _ => "<class 'numpy.ndarray'>"
  | .vlist _ => "<class 'list'>"
  | .vtuple _ => "<class 'tuple'>"
  | .vdict _ => "<class 'dict'>"
  | .vobj t => t

/-- The `str(type(v))` names of the value shapes pyarrow can encode; an
unserializable object never carries one of these names. -/
def builtinTypeNames : List String :=
  ["<class 'NoneType'>", "<class 'int'>", "<class 'float'>",
   "<class 'bool'>", "<class 'str'>", "<class 'numpy.ndarray'>",
   "<class 'list'>", "<class 'tuple'>", "<class 'dict'>"]

/-- Python truthiness for the modelled values (numbers: nonzero, strings and
containers: nonempty, objects: truthy). The paths modelled here only test
scalars and dicts. -/
def truthy : Value → Bool
  | .vnone => false
  | .vint n => n != 0
  | .vfloat q => q != 0
  | .vbool b => b
  | .vstr s => s != ""
  | .varr xs => match xs with | .nil => false | _ => true
  | .vlist xs => match xs with | .nil => false | _ => true
  | .vtuple xs => match xs with | .nil => false | _ => true
  | .vdict es => match es with | .nil => false | _ => true
  | .vobj _ => true

/-- `v == ''` in Python, for the `sim_args['map'] != ''` test. -/
def isEmptyStr : Value → Bool
  | .vstr s => s == ""
  | _ => false

namespace VList

def ofList : List Value → VList
  | [] => .nil
  | v :: tl => .cons v (ofList tl)

end VList

namespace VEntries

def lookup : VEntries → String → Option Value
  | .nil, _ => none
  | .cons k v tl, key => if k == key then some v else lookup tl key

def containsKey : VEntries → String → Bool
  | .nil, _ => false
  | .cons k _ tl, key => k == key || containsKey tl key

/-- `d[key]` with a default, used only under a `containsKey` guard. -/
def getD (es : VEntries) (key : String) (dflt : Value) : Value :=
  match es.lookup key with
  | some v => v
  | none => dflt

/-- Python dict assignment `d[key] = v`: replace in place, else append. -/
def insert : VEntries → String → Value → VEntries
  | .nil, key, v => .cons key v .nil
  | .cons k w tl, key, v =>
      if k == key then .cons k v tl else .cons k w (insert tl key v)

def keys : VEntries → List String
  | .nil => []
  | .cons k _ tl => k :: keys tl

end VEntries

/-
  Wire codec (server.py:212-307).

  `pyarrow.serialize` raises `SerializationCallbackError` at the first value
  of a type it cannot encode; the error message carries that value's
  `str(type(v))`. `firstUnserializable` models which type name such an error
  reports (`none` = encoding succeeds); the encoded form itself is modelled
  as the value. The in-check `str(type(v)) in msg` of server.py:293 is
  modelled as equality of the value's type name with the reported name.
-/

mutual

/-- The runtime type name pyarrow's serialization error reports for `v`, or
`none` when every nested value is encodable. Arrays are atomic and encodable
(their numeric contents are never the offender). -/
def firstUnserializable : Value → Option String
  | .vobj t => some t
  | .vdict es => firstUnserializableE es
  | .vlist xs => firstUnserializableL xs
  | .vtuple xs => firstUnserializableL xs
  | _ => none

def firstUnserializableL : VList → Option String
  | .nil => none
  | .cons v tl =>
      match firstUnserializable v with
      | some t => some t
      | none => firstUnserializableL tl

def firstUnserializableE : VEntries → Option String
  | .nil => none
  | .cons _ v tl =>
      match firstUnserializable v with
      | some t => some t
      | none => firstUnserializableE tl

end

/-- The diagnostic marker server.py:298-300 substitutes for an
unserializable dict value of runtime type `t`. -/
def markerFor (t : String) : String :=
  "[REMOVED!] " ++ t ++ " was not serializable on server. " ++
    "Avoid sending unserializable data for best performance."

mutual

/-- `Server.remove_unserializeables` (server.py:275-307) as a pure transform:
a dict value whose type name matches the reported `msg` is replaced by the
marker string; dict, list and tuple values are searched recursively; list
and tuple elements themselves are never replaced; other values (arrays
included) are left as they are. -/
def remove_unserializeables (x : Value) (msg : String) : Value :=
  match x with
  | .vdict es => .vdict (removeUnserializeablesE es msg)
  | .vlist xs => .vlist (removeUnserializeablesL xs msg)
  | .vtuple xs => .vtuple (removeUnserializeablesL xs msg)
  | v => v

def removeUnserializeablesL : VList → String → VList
  | .nil, _ => .nil
  | .cons v tl, msg =>
      .cons (remove_unserializeables v msg) (removeUnserializeablesL tl msg)

def removeUnserializeablesE : VEntries → String → VEntries
  | .nil, _ => .nil
  | .cons k v tl, msg =>
      let v2 :=
        if typeName v == msg then Value.vstr (markerFor (typeName v))
        else remove_unserializeables v msg
      .cons k v2 (removeUnserializeablesE tl msg)

end

mutual

/-- Whether some dict value in `x` has type name `msg` (i.e. whether a pass
of the substitution replaced something): used to model the update of
`self.serialization_errors`, which in the source only gates a log line. -/
def hasDictValueOfType (x : Value) (msg : String) : Bool :=
  match x with
  | .vdict es => hasDictValueOfTypeE es msg
  | .vlist xs => hasDictValueOfTypeL xs msg
  | .vtuple xs => hasDictValueOfTypeL xs msg
  | _ => false

def hasDictValueOfTypeL : VList → String → Bool
  | .nil, _ => false
  | .cons v tl, msg => hasDictValueOfType v msg || hasDictValueOfTypeL tl msg

def hasDictValueOfTypeE : VEntries → String → Bool
  | .nil, _ => false
  | .cons _ v tl, msg =>
      typeName v == msg || hasDictValueOfType v msg
        || hasDictValueOfTypeE tl msg

end

/-- `Server.serialize_pyarrow` (server.py:265-273): retry encoding, running
the substitution pass on each failure. The source's `while` loop has no pass
cap; `fuel` counts the passes this model is willing to run, and `none` means
the loop was still running after `fuel` passes. The second component threads
`self.serialization_errors`. -/
def serialize_pyarrow : Nat → Value → List String → Option (Value × List String)
  | 0, _, _ => none
  | fuel + 1, v, errs =>
      match firstUnserializable v with
      | none => some (v, errs)
      | some msg =>
          let errs2 :=
            if hasDictValueOfType v msg && !(errs.contains msg) then
              msg :: errs
            else errs
          serialize_pyarrow fuel (remove_unserializeables v msg) errs2

mutual

/-- Whether `simplejson.dumps` succeeds on `v` (json mode, server.py:214):
unserializable objects and numpy arrays raise `TypeError`. -/
def jsonEncodable : Value → Bool
  | .vobj _ => false
  | .varr _ => false
  | .vdict es => jsonEncodableE es
  | .vlist xs => jsonEncodableL xs
  | .vtuple xs => jsonEncodableL xs
  | _ => true

def jsonEncodableL : VList → Bool
  | .nil => true
  | .cons v tl => jsonEncodable v && jsonEncodableL tl

def jsonEncodableE : VEntries → Bool
  | .nil => true
  | .cons _ v tl => jsonEncodable v && jsonEncodableE tl

end

/-- `simplejson.dumps(resp, ignore_nan=True)`; the encoded text is modelled
as the value itself. -/
def simplejsonDumps (v : Value) : Except String Value :=
  if jsonEncodable v then .ok v else .error "TypeError"

/- Analysis functions over values, used to state the substitution claims. -/

mutual

/-- The set of runtime type names of the unserializable objects nested in
`v` (along the positions pyarrow's encoder visits, i.e. not inside arrays). -/
def opaqueSet : Value → Finset String
  | .vobj t => {t}
  | .vdict es => opaqueSetE es
  | .vlist xs => opaqueSetL xs
  | .vtuple xs => opaqueSetL xs
  | _ => ∅

def opaqueSetL : VList → Finset String
  | .nil => ∅
  | .cons v tl => opaqueSet v ∪ opaqueSetL tl

def opaqueSetE : VEntries → Finset String
  | .nil => ∅
  | .cons _ v tl => opaqueSet v ∪ opaqueSetE tl

end

mutual

/-- How many unserializable objects `v` contains (at encoder-visited
positions). -/
def opaqueCount : Value → Nat
  | .vobj _ => 1
  | .vdict es => opaqueCountE es
  | .vlist xs => opaqueCountL xs
  | .vtuple xs => opaqueCountL xs
  | _ => 0

def opaqueCountL : VList → Nat
  | .nil => 0
  | .cons v tl => opaqueCount v + opaqueCountL tl

def opaqueCountE : VEntries → Nat
  | .nil => 0
  | .cons _ v tl => opaqueCount v + opaqueCountE tl

end

mutual

/-- Whether every unserializable object nested in `v` sits at a position the
substitution pass can replace, i.e. is the value of some dict entry
(server.py:283-284: list and tuple items are never removed). -/
def cleanable : Value → Bool
  | .vobj _ => false
  | .vdict es => cleanableE es
  | .vlist xs => cleanableL xs
  | .vtuple xs => cleanableL xs
  | _ => true

def cleanableL : VList → Bool
  | .nil => true
  | .cons v tl => cleanable v && cleanableL tl

def cleanableE : VEntries → Bool
  | .nil => true
  | .cons _ v tl => cleanableV v && cleanableE tl

/-- A dict entry value is fine if it is an unserializable object (the pass
replaces it) or otherwise recursively cleanable. -/
def cleanableV : Value → Bool
  | .vobj _ => true
  | w => cleanable w

end

/-- The runtime type names of the unserializable objects in `v` do not
collide with the type names of the encodable value shapes (true of every
real unserializable type). -/
def hygienic (v : Value) : Prop :=
  ∀ t ∈ opaqueSet v, t ∉ builtinTypeNames

instance (v : Value) : Decidable (hygienic v) := by
  unfold hygienic; infer_instance

mutual

/-- The substitution the spec describes, in one pass: every unserializable
object standing as a dict value is replaced by the diagnostic marker built
from its runtime type name; the search recurses through dicts, lists and
tuples. Defined from the spec's words, to be compared with the iterated
`remove_unserializeables` passes of the source. -/
def replaceOpaques : Value → Value
  | .vdict es => .vdict (replaceOpaquesE es)
  | .vlist xs => .vlist (replaceOpaquesL xs)
  | .vtuple xs => .vtuple (replaceOpaquesL xs)
  | v => v

def replaceOpaquesL : VList → VList
  | .nil => .nil
  | .cons v tl => .cons (replaceOpaques v) (replaceOpaquesL tl)

def replaceOpaquesE : VEntries → VEntries
  | .nil => .nil
  | .cons k v tl => .cons k (replaceOpaquesV v) (replaceOpaquesE tl)

/-- The per-entry substitution: an unserializable object becomes the marker
string, everything else is transformed recursively. -/
def replaceOpaquesV : Value → Value
  | .vobj t => Value.vstr (markerFor t)
  | w => replaceOpaques w

end

def entriesOf : List (String × Value) → VEntries
  | [] => .nil
  | (k, v) :: tl => .cons k v (entriesOf tl)

namespace Methods

/-- Modelled from the spec: the method identifier constants live in
deepdrive_api/methods.py, which is not among the staged source files. The
spec fixes a closed enumeration `Start, Step, Reset, Close, ActionSpace,
ObservationSpace, Metadata, RewardRange, ChangeCameras`, stable across
client and server versions, with unknown identifiers a protocol error.
Distinct strings stand in for the nine constants. -/
def START : String := "start"

/-- Modelled from the spec: see `Methods.START`. -/
def STEP : String := "step"

/-- Modelled from the spec: see `Methods.START`. -/
def RESET : String := "reset"

/-- Modelled from the spec: see `Methods.START`. -/
def CLOSE : String := "close"

/-- Modelled from the spec: see `Methods.START`. -/
def ACTION_SPACE : String := "action_space"

/-- Modelled from the spec: see `Methods.START`. -/
def OBSERVATION_SPACE : String := "observation_space"

/-- Modelled from the spec: see `Methods.START`. -/
def REWARD_RANGE : String := "reward_range"

/-- Modelled from the spec: see `Methods.START`. -/
def METADATA : String := "metadata"

/-- Modelled from the spec: see `Methods.START`. -/
def CHANGE_CAMERAS : String := "change_cameras"

/-- The nine known method identifiers. -/
def known : List String :=
  [START, STEP, RESET, CLOSE, ACTION_SPACE, OBSERVATION_SPACE,
   REWARD_RANGE, METADATA, CHANGE_CAMERAS]

end Methods

/-- A decoded call envelope: `(method, args, kwargs)`. -/
structure Call where
  method : String
  args : List Value
  kwargs : VEntries

/-- A gym space as the server sees it: `spaces.Box` carries low, high and a
dtype string; any other space type only carries its name (server.py:317-329
supports Box alone). -/
inductive SpaceT where
  | box : Value → Value → String → SpaceT
  | other : String → SpaceT

def boxTypeName : String := "<class 'gym.spaces.box.Box'>"

/-- `Server.serialize_space` (server.py:317-329): a Box becomes the tagged
descriptor dict; any other space type raises `RuntimeError`. -/
def serialize_space : SpaceT → Except String Value
  | .box low high dtype =>
      .ok (.vdict (entriesOf
        [("type", .vstr boxTypeName), ("low", low), ("high", high),
         ("dtype", .vstr dtype)]))
  | .other n => .error ("RuntimeError: Space of type " ++ n ++ " not supported")

/-- The environment collaborator handle the server drives (the external
simulation: spec section 6 lists exactly this interface). Response values
are supplied by the collaborator; `should_close` is the flag read through
`env.unwrapped`. -/
structure Env where
  should_close : Bool
  step_fn : Value → Value
  reset_val : Value
  action_space : SpaceT
  observation_space : SpaceT
  reward_range : Value
  metadata : Value
  change_cameras_fn : List Value → VEntries → Value

/-- A collaborator operation the dispatcher executed. -/
inductive EnvOp where
  | opStart : VEntries → EnvOp
  | opStep : Value → EnvOp
  | opReset : EnvOp
  | opClose : EnvOp
  | opChangeCameras : List Value → VEntries → EnvOp

/-- The server's mutable fields (server.py:75-85). The zmq socket and
context are external I/O handles and are not part of the dispatch state. -/
structure ServerState where
  sim : VEntries → Env
  sim_args : Option VEntries
  json_mode : Bool
  env : Option Env
  serialization_errors : List String
  should_close_time : Int

/-- `Server.__init__` (server.py:59-85): no environment, empty error set,
close deadline unset (0). -/
def serverInit (sim : VEntries → Env) (json_mode : Bool)
    (sim_args : Option VEntries) : ServerState :=
  { sim := sim, sim_args := sim_args, json_mode := json_mode,
    env := none, serialization_errors := [], should_close_time := 0 }

/-- server.py:24-33. -/
def BLACKLIST_PARAMS : List String := ["is_remote_client", "sess"]

/-- server.py:35-47: the reason-carrying challenge blacklist. It is defined
at module scope and no function of server.py reads it. -/
def CHALLENGE_BLACKLIST_PARAMS : List (String × String) :=
  [("env_id", "Only one gym env"),
   ("max_steps", "Evaluation duration is standard across submissions"),
   ("use_sim_start_command", "Cannot pass parameters to Unreal"),
   ("fps", "Step duration is capped"),
   ("driving_style", "Modifies reward function"),
   ("enable_traffic", "Changes difficulty of scenario"),
   ("ego_mph",
    "Used by in-game throttle PID, submissions must control their own throttle")]

/-- `Server.remove_blacklisted_params` (server.py:309-315): delete every key
of `BLACKLIST_PARAMS` from the kwargs, in place; absent keys are simply not
removed (the iteration never raises). -/
def remove_blacklisted_params : VEntries → VEntries
  | .nil => .nil
  | .cons k v tl =>
      if BLACKLIST_PARAMS.contains k then remove_blacklisted_params tl
      else .cons k v (remove_blacklisted_params tl)

/-- `get_action` (client.py:162-168), also used by the server's json-mode
step decode: each component defaults when absent, and an unexpected keyword
raises `TypeError`. -/
def get_action (kwargs : VEntries) : Except String Value :=
  if kwargs.keys.all (fun k =>
      ["steering", "throttle", "brake", "handbrake",
       "has_control"].contains k) then
    .ok (.vlist (VList.ofList
      [.varr (VList.ofList [kwargs.getD "steering" (.vint 0)]),
       .varr (VList.ofList [kwargs.getD "throttle" (.vint 0)]),
       .varr (VList.ofList [kwargs.getD "brake" (.vint 0)]),
       .varr (VList.ofList [kwargs.getD "handbrake" (.vint 0)]),
       kwargs.getD "has_control" (.vbool true)]))
  else .error "TypeError"

/-- `d[k]` on a Python value: KeyError when the key is absent, TypeError
when the value is not a mapping. -/
def dictItem (v : Value) (k : String) : Except String Value :=
  match v with
  | .vdict es =>
      match es.lookup k with
      | some x => .ok x
      | none => .error ("KeyError: " ++ k)
  | _ => .error "TypeError: value is not subscriptable"

/-- `.tolist()`: defined on numpy arrays alone. -/
def tolist (v : Value) : Except String Value :=
  match v with
  | .varr xs => .ok (.vlist xs)
  | _ => .error "AttributeError: tolist"

/-- `Server.get_filtered_observation` (server.py:219-263), including the
`accerlation` key spelling and `collision_location` sourced from
`collision_normal` as in the source. -/
def get_filtered_observation (obs : Value) : Except String Value := do
  let coll ← dictItem obs "last_collision"
  let acceleration ← dictItem obs "acceleration" >>= tolist
  let angular_acceleration ← dictItem obs "angular_acceleration" >>= tolist
  let angular_velocity ← dictItem obs "angular_velocity" >>= tolist
  let brake ← dictItem obs "brake"
  let capture_timestamp ← dictItem obs "capture_timestamp"
  let dimension ← dictItem obs "dimension" >>= tolist
  let distance_along_route ← dictItem obs "distance_along_route"
  let distance_to_center_of_lane ← dictItem obs "distance_to_center_of_lane"
  let distance_to_next_agent ← dictItem obs "distance_to_next_agent"
  let distance_to_next_opposing_agent ←
    dictItem obs "distance_to_next_opposing_agent"
  let distance_to_prev_agent ← dictItem obs "distance_to_prev_agent"
  let episode_return ← dictItem obs "episode_return"
  let forward_vector ← dictItem obs "forward_vector" >>= tolist
  let handbrake ← dictItem obs "handbrake"
  let is_game_driving ← dictItem obs "is_game_driving"
  let is_passing ← dictItem obs "is_passing"
  let is_resetting ← dictItem obs "is_resetting"
  let lap_number ← dictItem obs "lap_number"
  let collidee_velocity ← dictItem coll "collidee_velocity" >>= tolist
  let collision_normal ← dictItem coll "collision_normal" >>= tolist
  let time_since_last_collision ← dictItem coll "time_since_last_collision"
  let time_stamp ← dictItem coll "time_stamp"
  let time_utc ← dictItem coll "time_utc"
  let position ← dictItem obs "position" >>= tolist
  let right_vector ← dictItem obs "right_vector" >>= tolist
  let rotation ← dictItem obs "rotation" >>= tolist
  let route_length ← dictItem obs "route_length"
  let scenario_finished ← dictItem obs "scenario_finished"
  let speed ← dictItem obs "speed"
  let steering ← dictItem obs "steering"
  let throttle ← dictItem obs "throttle"
  let up_vector ← dictItem obs "up_vector" >>= tolist
  let velocity ← dictItem obs "velocity" >>= tolist
  let world ← dictItem obs "world"
  .ok (.vdict (entriesOf
    [("accerlation", acceleration),
     ("angular_acceleration", angular_acceleration),
     ("angular_velocity", angular_velocity),
     ("brake", brake),
     ("capture_timestamp", capture_timestamp),
     ("dimension", dimension),
     ("distance_along_route", distance_along_route),
     ("distance_to_center_of_lane", distance_to_center_of_lane),
     ("distance_to_next_agent", distance_to_next_agent),
     ("distance_to_next_opposing_agent", distance_to_next_opposing_agent),
     ("distance_to_prev_agent", distance_to_prev_agent),
     ("episode_return", episode_return),
     ("forward_vector", forward_vector),
     ("handbrake", handbrake),
     ("is_game_driving", is_game_driving),
     ("is_passing", is_passing),
     ("is_resetting", is_resetting),
     ("lap_number", lap_number),
     ("last_collision", .vdict (entriesOf
       [("collidee_velocity", collidee_velocity),
        ("collision_location", collision_normal),
        ("collision_normal", collision_normal),
        ("time_since_last_collision", time_since_last_collision),
        ("time_stamp", time_stamp),
        ("time_utc", time_utc)])),
     ("position", position),
     ("right_vector", right_vector),
     ("rotation", rotation),
     ("route_length", route_length),
     ("scenario_finished", scenario_finished),
     ("speed", speed),
     ("steering", steering),
     ("throttle", throttle),
     ("up_vector", up_vector),
     ("velocity", velocity),
     ("world", world)]))

/-- `Server.get_step_response` (server.py:179-193): run the collaborator's
step; in json mode unpack the 4-tuple, filter the observation when truthy,
and rebuild the response dict; otherwise pass the raw step response on. -/
def get_step_response (st : ServerState) (e : Env) (action : Value) :
    Except String Value :=
  let resp := e.step_fn action
  if st.json_mode then
    match resp with
    | .vtuple (.cons obs (.cons reward (.cons dn (.cons info .nil))))
    | .vlist (.cons obs (.cons reward (.cons dn (.cons info .nil)))) => do
        let obs2 ← if truthy obs then get_filtered_observation obs
                   else .ok Value.vnone
        .ok (.vdict (entriesOf
          [("observation", obs2), ("reward", reward),
           ("done", dn), ("info", info)]))
    | _ => .error "TypeError: cannot unpack step response"
  else .ok resp

def startedResp (t : String) : Value :=
  .vdict (entriesOf
    [("server_started", .vdict (entriesOf [("type", .vstr t)]))])

/-- `Server.handle_start_sim_request` (server.py:195-210). With server-side
`sim_args` the environment starts from them (mutating `sim_args` with the
client's `path_follower` under the guarded condition; `sim_args['map']`
raises KeyError when `map` is absent from `sim_args` and the first three
conjuncts hold); `remove_blacklisted_params(kwargs)` runs in either branch,
but only in the `sim_args is None` branch does `sim_args` alias `kwargs`,
so only there the filtered client kwargs reach `sim.start`. -/
def handle_start_sim_request (st : ServerState) (kwargs : VEntries) :
    Except String (ServerState × Value × List EnvOp) :=
  match st.sim_args with
  | some sa =>
      if kwargs.containsKey "path_follower"
          && truthy (kwargs.getD "path_follower" .vnone)
          && kwargs.containsKey "map" then
        match sa.lookup "map" with
        | none => .error "KeyError: map"
        | some mapVal =>
            let sa2 :=
              if isEmptyStr mapVal then sa
              else sa.insert "path_follower" (kwargs.getD "path_follower" .vnone)
            .ok ({ st with sim_args := some sa2, env := some (st.sim sa2) },
                 startedResp "locally_configured", [.opStart sa2])
      else
        .ok ({ st with env := some (st.sim sa) },
             startedResp "locally_configured", [.opStart sa])
  | none =>
      let fk := remove_blacklisted_params kwargs
      .ok ({ st with env := some (st.sim fk) },
           startedResp "remotely_configured", [.opStart fk])

/-- One outcome of `Server.dispatch`: a served call (`ok` carries the new
state, the response value, the encoded messages sent, the collaborator
operations executed and the returned done flag), a propagated exception
(`raised`), or a serialization retry loop still spinning after the fuel ran
out (`hung`). -/
inductive DOut where
  | ok : ServerState → Option Value → List Value → List EnvOp → Bool → DOut
  | raised : ServerState → List EnvOp → String → DOut
  | hung : ServerState → List EnvOp → DOut

def DOut.stateOf : DOut → ServerState
  | .ok st _ _ _ _ => st
  | .raised st _ _ => st
  | .hung st _ => st

/-- The method-routed part of `Server.dispatch` (server.py:132-168), before
serialization: the branch order mirrors the source's `if`/`elif` chain. -/
def dispatchCore (st : ServerState) (now : Int) (call : Call) :
    Except (List EnvOp × String) (ServerState × Value × List EnvOp × Bool) :=
  if st.env.isNone && (call.method != Methods.START) then
    .ok (st, .vstr "No environment started, please send start request",
         [], false)
  else if call.method == Methods.CLOSE then
    .ok (st, .vdict (entriesOf [("closed_sim", .vbool true)]),
         [.opClose], true)
  else if (match st.env with | some e => e.should_close | none => false) then
    if st.should_close_time == 0 then
      .ok ({ st with should_close_time := now + 3 },
           .vstr "Simulation closing", [], false)
    else if now > st.should_close_time then
      .ok (st, .vstr "Simulation closing", [.opClose], true)
    else
      .ok (st, .vstr "Simulation closing", [], false)
  else if call.method == Methods.START then
    match handle_start_sim_request st call.kwargs with
    | .ok (st2, resp, ops) => .ok (st2, resp, ops, false)
    | .error e => .error ([], e)
  else if call.method == Methods.STEP then
    match st.env with
    | none => .error ([], "AttributeError: env is None")
    | some e =>
        let actionE : Except String Value :=
          if st.json_mode then get_action call.kwargs
          else
            match call.args with
            | a :: _ => .ok a
            | [] => .error "IndexError: args[0]"
        match actionE with
        | .error er => .error ([], er)
        | .ok action =>
            match get_step_response st e action with
            | .ok resp => .ok (st, resp, [.opStep action], false)
            | .error er => .error ([.opStep action], er)
  else if call.method == Methods.RESET then
    match st.env with
    | none => .error ([], "AttributeError: env is None")
    | some e =>
        .ok (st, .vdict (entriesOf [("reset_response", e.reset_val)]),
             [.opReset], false)
  else if call.method == Methods.ACTION_SPACE
      || call.method == Methods.OBSERVATION_SPACE then
    match st.env with
    | none => .error ([], "AttributeError: env is None")
    | some e =>
        match serialize_space e.action_space with
        | .ok v => .ok (st, v, [], false)
        | .error er => .error ([], er)
  else if call.method == Methods.REWARD_RANGE then
    match st.env with
    | none => .error ([], "AttributeError: env is None")
    | some e => .ok (st, e.reward_range, [], false)
  else if call.method == Methods.METADATA then
    match st.env with
    | none => .error ([], "AttributeError: env is None")
    | some e => .ok (st, e.metadata, [], false)
  else if call.method == Methods.CHANGE_CAMERAS then
    match st.env with
    | none => .error ([], "AttributeError: env is None")
    | some e =>
        .ok (st, e.change_cameras_fn call.args call.kwargs,
             [.opChangeCameras call.args call.kwargs], false)
  else
    .ok (st, .vstr "Invalid API method", [], false)

/-- `Server.dispatch` (server.py:114-177): an empty payload is logged and
skipped (the early `return` yields a falsy `None`, so the serve loop
continues), otherwise the call is routed through `dispatchCore` and the
response is serialized and sent. `fuel` bounds the passes of the pyarrow
retry loop, which the source leaves unbounded. -/
def dispatch (fuel : Nat) (st : ServerState) (now : Int)
    (msg : Option Call) : DOut :=
  match msg with
  | none => .ok st none [] [] false
  | some call =>
      match dispatchCore st now call with
      | .error (ops, e) => .raised st ops e
      | .ok (st1, resp, ops, doneFlag) =>
          if st1.json_mode then
            match simplejsonDumps resp with
            | .error e => .raised st1 ops e
            | .ok enc => .ok st1 (some resp) [enc] ops doneFlag
          else
            match serialize_pyarrow fuel resp st1.serialization_errors with
            | none => .hung st1 ops
            | some (enc, errs2) =>
                .ok { st1 with serialization_errors := errs2 }
                  (some resp) [enc] ops doneFlag

/-
  Requester side (src/deepdrive_api/client.py).
-/

/-- The client's mutable fields (client.py:44-62). The zmq socket itself is
external; `socket_open` tracks whether the client holds a live socket. -/
structure ClientState where
  socket_open : Bool
  last_obz : Option Value
  should_render : Bool
  is_open : Bool

/-- What one network exchange yields on the client side: a decoded reply
from the server, or a zmq timeout (`zmq.error.Again`). -/
inductive NetResult where
  | reply : Value → NetResult
  | timeout : NetResult

/-- The outcome of one public client operation: the object's state after it,
the wire messages it sent, and its return value or the exception it
raised. -/
structure ClientOut (α : Type) where
  state : ClientState
  sent : List Call
  result : Except String α

/-- `Client.create_socket` (client.py:79-95): closes any held socket and
connects a fresh one. -/
def create_socket (st : ClientState) : ClientState :=
  { st with socket_open := true }

/-- The `[method, args, kwargs]` list the client hands to
`pyarrow.serialize` (client.py:71). -/
def callValue (method : String) (args : List Value) (kwargs : VEntries) :
    Value :=
  .vlist (VList.ofList [.vstr method, .vlist (VList.ofList args),
                        .vdict kwargs])

/-- `Client._send` (client.py:64-77): any non-Start method is rejected
locally while the session is closed (warn, return None, send nothing);
otherwise the call is serialized and sent, and the reply deserialized; a
zmq timeout recreates the socket and returns None. Client-side
serialization of an unencodable argument raises (only `zmq.error.Again` is
caught). -/
def clientSend (st : ClientState) (method : String) (args : List Value)
    (kwargs : VEntries) (net : NetResult) :
    ClientOut (Option Value) :=
  if method != Methods.START && !st.is_open then
    { state := st, sent := [], result := .ok none }
  else
    match firstUnserializable (callValue method args kwargs) with
    | some t => { state := st, sent := [],
                  result := .error ("SerializationCallbackError: " ++ t) }
    | none =>
        match net with
        | .reply v =>
            { state := st, sent := [⟨method, args, kwargs⟩],
              result := .ok (some v) }
        | .timeout =>
            { state := create_socket st, sent := [⟨method, args, kwargs⟩],
              result := .ok none }

/-- `Client.handle_closed` (client.py:134-139): mark the session closed and
close the socket (socket errors are swallowed). -/
def handle_closed (st : ClientState) : ClientState :=
  { st with is_open := false, socket_open := false }

/-- `deserialize_space` (client.py:16-21): a None response is subscripted
(`TypeError`), a Box-tagged dict is rebuilt into a Box, any other tag is an
unsupported-space `RuntimeError`. -/
def deserialize_space (resp : Option Value) : Except String SpaceT :=
  match resp with
  | none => .error "TypeError: NoneType is not subscriptable"
  | some v => do
      let tag ← dictItem v "type"
      match tag with
      | .vstr s =>
          if s == boxTypeName then do
            let low ← dictItem v "low"
            let high ← dictItem v "high"
            let dtype ← dictItem v "dtype"
            match dtype with
            | .vstr ds => .ok (.box low high ds)
            | _ => .error "TypeError: bad dtype"
          else .error "RuntimeError: Unsupported action space type"
      | _ => .error "RuntimeError: Unsupported action space type"

/-- `Client.step` (client.py:97-110): send the action, unpack the 4-part
reply (`None` from a closed/timed-out send fails to unpack and raises
`TypeError`), transition to closed when `info` carries a truthy `closed`
flag, store the (falsy-to-None) observation, and render when asked —
`self.renderer` is never assigned in client.py, so rendering a present
observation raises `AttributeError`. -/
def clientStep (st : ClientState) (action : Value) (net : NetResult) :
    ClientOut (Option Value × Value × Value × Value) :=
  let o := clientSend st Methods.STEP [action] .nil net
  match o.result with
  | .error e => { state := o.state, sent := o.sent, result := .error e }
  | .ok ret =>
      match ret with
      | none =>
          { state := o.state, sent := o.sent,
            result := .error "TypeError: cannot unpack non-iterable NoneType" }
      | some r =>
          match r with
          | .vtuple (.cons obz (.cons reward (.cons dn (.cons info .nil))))
          | .vlist (.cons obz (.cons reward (.cons dn (.cons info .nil)))) =>
              match info with
              | .vdict ies =>
                  let closedFlag := (ies.getD "closed" (.vbool false))
                  let st2 := if truthy closedFlag then handle_closed o.state
                             else o.state
                  let obz2 := if truthy obz then some obz else none
                  let st3 := { st2 with last_obz := obz2 }
                  if st3.should_render && obz2.isSome then
                    { state := st3, sent := o.sent,
                      result := .error "AttributeError: renderer" }
                  else
                    { state := st3, sent := o.sent,
                      result := .ok (obz2, reward, dn, info) }
              | _ =>
                  { state := o.state, sent := o.sent,
                    result := .error "AttributeError: info.get" }
          | _ =>
              { state := o.state, sent := o.sent,
                result := .error "TypeError: cannot unpack step response" }

/-- `Client.reset` (client.py:112-117): rejected locally (warn, return
None) when the session is closed. -/
def clientReset (st : ClientState) (net : NetResult) :
    ClientOut (Option Value) :=
  if st.is_open then clientSend st Methods.RESET [] .nil net
  else { state := st, sent := [], result := .ok none }

/-- `Client.change_cameras` (client.py:127-128). -/
def clientChangeCameras (st : ClientState) (cameras : Value)
    (net : NetResult) : ClientOut (Option Value) :=
  clientSend st Methods.CHANGE_CAMERAS [cameras] .nil net

/-- `Client.close` (client.py:130-132): `_send(CLOSE)` then
`handle_closed()`. -/
def clientClose (st : ClientState) (net : NetResult) : ClientOut Unit :=
  let o := clientSend st Methods.CLOSE [] .nil net
  { state := handle_closed o.state, sent := o.sent,
    result := o.result.map (fun _ => ()) }

/-- `Client.action_space` (client.py:141-145). -/
def clientActionSpace (st : ClientState) (net : NetResult) :
    ClientOut SpaceT :=
  let o := clientSend st Methods.ACTION_SPACE [] .nil net
  match o.result with
  | .error e => { state := o.state, sent := o.sent, result := .error e }
  | .ok resp =>
      { state := o.state, sent := o.sent, result := deserialize_space resp }

/-- `Client.observation_space` (client.py:147-151). -/
def clientObservationSpace (st : ClientState) (net : NetResult) :
    ClientOut SpaceT :=
  let o := clientSend st Methods.OBSERVATION_SPACE [] .nil net
  match o.result with
  | .error e => { state := o.state, sent := o.sent, result := .error e }
  | .ok resp =>
      { state := o.state, sent := o.sent, result := deserialize_space resp }

/-- `Client.metadata` (client.py:153-155). -/
def clientMetadata (st : ClientState) (net : NetResult) :
    ClientOut (Option Value) :=
  clientSend st Methods.METADATA [] .nil net

/-- `Client.reward_range` (client.py:157-159). -/
def clientRewardRange (st : ClientState) (net : NetResult) :
    ClientOut (Option Value) :=
  clientSend st Methods.REWARD_RANGE [] .nil net

/-- `DEFAULT_CAM` (constants.py:3-12). -/
def DEFAULT_CAM : Value :=
  .vdict (entriesOf
    [("name", .vstr "My cam!"),
     ("field_of_view", .vint 60),
     ("capture_width", .vint 227),
     ("capture_height", .vint 227),
     ("relative_position",
      .vlist (VList.ofList [.vint 150, .vfloat 1, .vint 200])),
     ("relative_rotation",
      .vlist (VList.ofList [.vfloat 0, .vfloat 0, .vfloat 0]))])

/-- `Client.__init__` (client.py:44-62): create the socket, read
`client_render`, mark the session open, default the cameras, send the Start
call (a timeout leaves a null acknowledgment), and mark the session open
again. -/
def clientInit (kwargs : VEntries) (net : NetResult) :
    ClientOut ClientState :=
  let st0 : ClientState :=
    { socket_open := true, last_obz := none,
      should_render := truthy (kwargs.getD "client_render" (.vbool false)),
      is_open := true }
  let kwargs2 :=
    kwargs.insert "cameras"
      (kwargs.getD "cameras" (.vlist (.cons DEFAULT_CAM .nil)))
  let o := clientSend st0 Methods.START [] kwargs2 net
  match o.result with
  | .error e => { state := o.state, sent := o.sent, result := .error e }
  | .ok _ =>
      let st1 := { o.state with is_open := true }
      { state := st1, sent := o.sent, result := .ok st1 }

/- Example collaborators and states used by the concrete evaluations. -/

def envEx0 : Env :=
  { should_close := false, step_fn := fun _ => .vnone, reset_val := .vnone,
    action_space := .box (.vint 0) (.vint 1) "float32",
    observation_space := .box (.vint 0) (.vint 1) "float32",
    reward_range := .vnone, metadata := .vnone,
    change_cameras_fn := fun _ _ => .vnone }

def envClosing : Env := { envEx0 with should_close := true }

def stNoEnv : ServerState := serverInit (fun _ => envEx0) false none

def stEnv : ServerState := { stNoEnv with env := some envEx0 }

def stClosing : ServerState := { stNoEnv with env := some envClosing }

def closedClient : ClientState :=
  { socket_open := false, last_obz := none, should_render := false,
    is_open := false }

def openClient : ClientState :=
  { socket_open := true, last_obz := none, should_render := false,
    is_open := true }

/- Supporting lemmas. -/

theorem remove_blacklisted_params_lookup :
    ∀ (es : VEntries) (k : String),
      (remove_blacklisted_params es).lookup k =
        if BLACKLIST_PARAMS.contains k then none else es.lookup k
  | .nil, k => by
      simp only [remove_blacklisted_params, VEntries.lookup]
      split <;> rfl
  | .cons k0 v tl, k => by
      have ih := remove_blacklisted_params_lookup tl k
      by_cases hb : BLACKLIST_PARAMS.contains k0
      · rw [remove_blacklisted_params]
        simp only [hb, if_true, ih]
        by_cases hk : k0 == k
        · have hkk : k0 = k := by simpa using hk
          subst hkk
          have hbm : k0 ∈ BLACKLIST_PARAMS := by simpa using hb
          simp [VEntries.lookup, hbm]
        · simp [VEntries.lookup, hk]
      · rw [remove_blacklisted_params]
        simp only [hb, Bool.false_eq_true, if_false, VEntries.lookup]
        by_cases hk : k0 == k
        · have hkk : k0 = k := by simpa using hk
          subst hkk
          have hbm : k0 ∉ BLACKLIST_PARAMS := by simpa using hb
          simp [hk, hbm]
        · simp [hk, ih]

/-- C7 (corrected): the Parameter Filter removes in place exactly the keys
of the fixed blacklist (`is_remote_client`, `sess`) and never raises for
absent keys (it is a total filter over the entries), so
`{is_remote_client: true, sess: X, foo: 1}` yields `{foo: 1}`; the
reason-carrying challenge blacklist is defined — with `driving_style`
carrying the reason "Modifies reward function" — but no code path of the
server applies it, so `{driving_style: 'aggressive'}` is returned
unchanged. -/
theorem C7_theorem :
    (∀ (es : VEntries) (k : String),
        (remove_blacklisted_params es).lookup k =
          if BLACKLIST_PARAMS.contains k then none else es.lookup k)
    ∧ remove_blacklisted_params (entriesOf
        [("is_remote_client", .vbool true), ("sess", .vstr "X"),
         ("foo", .vint 1)]) = entriesOf [("foo", .vint 1)]
    ∧ ("driving_style", "Modifies reward function")
        ∈ CHALLENGE_BLACKLIST_PARAMS
    ∧ remove_blacklisted_params
        (entriesOf [("driving_style", .vstr "aggressive")])
        = entriesOf [("driving_style", .vstr "aggressive")] :=
  ⟨remove_blacklisted_params_lookup, rfl, by simp [CHALLENGE_BLACKLIST_PARAMS], rfl⟩

/-- C7 counterexample: the claim says that in restricted/competition mode
filtering `{driving_style: 'aggressive'}` yields `{}`; the only filter the
server has, `remove_blacklisted_params`, returns that kwargs dict unchanged
and nonempty — no code path consults the reason-carrying blacklist. -/
theorem C7_counterexample :
    remove_blacklisted_params
        (entriesOf [("driving_style", .vstr "aggressive")])
      = entriesOf [("driving_style", .vstr "aggressive")]
    ∧ entriesOf [("driving_style", .vstr "aggressive")] ≠ VEntries.nil :=
  ⟨rfl, fun h => VEntries.noConfusion h⟩

/-- C8 (amended): an empty received payload is logged and skipped — no
response is sent, no collaborator operation runs, the serve loop continues
and nothing is raised; an unknown MethodId (with an environment present and
no close pending), and any non-Start call while no environment handle
exists, each get a descriptive string response with no collaborator
operation, no loop termination and no exception. -/
theorem C8_theorem (st : ServerState) (now : Int) (call : Call) (fuel : Nat)
    (hf : 1 ≤ fuel) :
    (dispatch fuel st now none = .ok st none [] [] false)
    ∧ (st.env = none → call.method ≠ Methods.START →
        dispatch fuel st now (some call)
          = .ok st
              (some (.vstr "No environment started, please send start request"))
              [.vstr "No environment started, please send start request"]
              [] false)
    ∧ (∀ e, st.env = some e → e.should_close = false →
        call.method ∉ Methods.known →
        dispatch fuel st now (some call)
          = .ok st (some (.vstr "Invalid API method"))
              [.vstr "Invalid API method"] [] false) := by
  obtain ⟨m, rfl⟩ : ∃ m, fuel = m + 1 := ⟨fuel - 1, by omega⟩
  obtain ⟨sims, sargs, jm, envf, errsf, sctf⟩ := st
  refine ⟨rfl, ?_, ?_⟩
  · intro he hm
    have hm' : (call.method != Methods.START) = true := by
      simpa using hm
    simp only at he
    subst he
    cases jm
    · simp [dispatch, dispatchCore, hm', serialize_pyarrow,
            firstUnserializable]
    · simp [dispatch, dispatchCore, hm', simplejsonDumps, jsonEncodable]
  · intro e he hsc hk
    simp only [Methods.known, List.mem_cons, List.mem_singleton,
      not_or] at hk
    obtain ⟨h1, h2, h3, h4, h5, h6, h7, h8, h9, -⟩ := hk
    simp only at he
    subst he
    cases jm
    · simp [dispatch, dispatchCore, hsc, serialize_pyarrow,
            firstUnserializable, h1, h2, h3, h4, h5, h6, h7, h8, h9]
    · simp [dispatch, dispatchCore, hsc, simplejsonDumps, jsonEncodable,
            h1, h2, h3, h4, h5, h6, h7, h8, h9]

/-- C8 witness: the theorem applied to a concrete bogus method against a
live environment. -/
theorem C8_witness :
    dispatch 1 stEnv 0 (some ⟨"bogus_method", [], .nil⟩)
      = .ok stEnv (some (.vstr "Invalid API method"))
          [.vstr "Invalid API method"] [] false :=
  (C8_theorem stEnv 0 ⟨"bogus_method", [], .nil⟩ 1 (le_refl 1)).2.2
    envEx0 rfl rfl (by decide)

/-- C8 counterexample: on an empty payload the responder sends no response
at all (it logs and skips), where the claim says every protocol fault gets
a descriptive string response. -/
theorem C8_counterexample :
    dispatch 1 stNoEnv 0 none = .ok stNoEnv none [] [] false := rfl

/-- C4 (amended): while the collaborator reports `should_close` and the call
is not Close, the first dispatch records `now + 3` as the deadline and
answers "Simulation closing" without executing the call; every later call
dispatched at a time less than or equal to the deadline is also answered
"Simulation closing" with no collaborator operation and no loop
termination; the first call dispatched strictly after the deadline
force-closes the collaborator and terminates the loop (still answering
"Simulation closing"); the responder never force-closes at or before the
deadline. -/
theorem C4_theorem (st : ServerState) (now : Int) (call : Call) (fuel : Nat)
    (e : Env) (hf : 1 ≤ fuel) (he : st.env = some e)
    (hsc : e.should_close = true) (hm : call.method ≠ Methods.CLOSE) :
    (st.should_close_time = 0 →
       dispatch fuel st now (some call)
         = .ok { st with should_close_time := now + 3 }
             (some (.vstr "Simulation closing")) [.vstr "Simulation closing"]
             [] false)
    ∧ (st.should_close_time ≠ 0 → now ≤ st.should_close_time →
       dispatch fuel st now (some call)
         = .ok st (some (.vstr "Simulation closing"))
             [.vstr "Simulation closing"] [] false)
    ∧ (st.should_close_time ≠ 0 → st.should_close_time < now →
       dispatch fuel st now (some call)
         = .ok st (some (.vstr "Simulation closing"))
             [.vstr "Simulation closing"] [EnvOp.opClose] true) := by
  obtain ⟨m, rfl⟩ : ∃ m, fuel = m + 1 := ⟨fuel - 1, by omega⟩
  have hm' : (call.method == Methods.CLOSE) = false := by
    simpa using hm
  obtain ⟨sims, sargs, jm, envf, errsf, sctf⟩ := st
  simp only at he
  subst he
  refine ⟨?_, ?_, ?_⟩
  · intro h0
    simp only at h0
    subst h0
    cases jm
    · simp [dispatch, dispatchCore, hm', hsc, serialize_pyarrow,
            firstUnserializable]
    · simp [dispatch, dispatchCore, hm', hsc, simplejsonDumps,
            jsonEncodable]
  · intro h0 hle
    simp only at h0 hle
    have hgt : ¬ (now > sctf) := by omega
    cases jm
    · simp [dispatch, dispatchCore, hm', hsc, h0, hgt, serialize_pyarrow,
            firstUnserializable]
    · simp [dispatch, dispatchCore, hm', hsc, h0, hgt, simplejsonDumps,
            jsonEncodable]
  · intro h0 hlt
    simp only at h0 hlt
    have hgt : now > sctf := hlt
    cases jm
    · simp [dispatch, dispatchCore, hm', hsc, h0, hgt, serialize_pyarrow,
            firstUnserializable]
    · simp [dispatch, dispatchCore, hm', hsc, h0, hgt, simplejsonDumps,
            jsonEncodable]

/-- C4 witness: a concrete closing collaborator, its deadline already set to
103, answers a Step call at time 103 with "closing" and no forced close,
and a Step call at 104 with a forced close and loop termination. -/
theorem C4_witness :
    dispatch 1 { stClosing with should_close_time := 103 } 103
        (some ⟨Methods.STEP, [.vint 0], .nil⟩)
      = .ok { stClosing with should_close_time := 103 }
          (some (.vstr "Simulation closing")) [.vstr "Simulation closing"]
          [] false
    ∧ dispatch 1 { stClosing with should_close_time := 103 } 104
        (some ⟨Methods.STEP, [.vint 0], .nil⟩)
      = .ok { stClosing with should_close_time := 103 }
          (some (.vstr "Simulation closing")) [.vstr "Simulation closing"]
          [EnvOp.opClose] true :=
  ⟨((C4_theorem { stClosing with should_close_time := 103 } 103
      ⟨Methods.STEP, [.vint 0], .nil⟩ 1 envClosing (le_refl 1) rfl rfl
      (by decide)).2.1) (by decide) (by decide),
   ((C4_theorem { stClosing with should_close_time := 103 } 104
      ⟨Methods.STEP, [.vint 0], .nil⟩ 1 envClosing (le_refl 1) rfl rfl
      (by decide)).2.2) (by decide) (by decide)⟩

/-- C4 counterexample: the collaborator starts reporting should-close at
T = 100, so the deadline is 103 = T+3; the claim requires the first call
dispatched at or after T+3 to force-close, but the dispatch at exactly
time 103 answers "Simulation closing" with no collaborator close and no
loop termination. -/
theorem C4_counterexample :
    dispatch 1 stClosing 100 (some ⟨Methods.STEP, [.vint 0], .nil⟩)
      = .ok { stClosing with should_close_time := 103 }
          (some (.vstr "Simulation closing")) [.vstr "Simulation closing"]
          [] false
    ∧ dispatch 1 { stClosing with should_close_time := 103 } 103
        (some ⟨Methods.STEP, [.vint 0], .nil⟩)
      = .ok { stClosing with should_close_time := 103 }
          (some (.vstr "Simulation closing")) [.vstr "Simulation closing"]
          [] false := by
  constructor
  · show dispatch 1 stClosing 100 (some ⟨Methods.STEP, [.vint 0], .nil⟩)
      = .ok { stClosing with should_close_time := (100 : Int) + 3 }
          (some (.vstr "Simulation closing")) [.vstr "Simulation closing"]
          [] false
    rfl
  · rfl

/-- The exact condition under which one dispatch writes the close deadline:
a call arrived, an environment exists whose collaborator reports
should-close, the call is not Close (Close is matched first), and the
deadline is still unset. -/
def closeTriggerB (st : ServerState) (call : Call) : Bool :=
  (match st.env with | some e => e.should_close | none => false)
  && (call.method != Methods.CLOSE) && (st.should_close_time == 0)

theorem handle_start_sct (st : ServerState) (kwargs : VEntries)
    (st2 : ServerState) (resp : Value) (ops : List EnvOp)
    (h : handle_start_sim_request st kwargs = .ok (st2, resp, ops)) :
    st2.should_close_time = st.should_close_time := by
  unfold handle_start_sim_request at h
  split at h
  · split at h
    · split at h
      · exact absurd h (by simp)
      · simp only [Except.ok.injEq, Prod.mk.injEq] at h
        obtain ⟨h1, -⟩ := h
        subst h1
        rfl
    · simp only [Except.ok.injEq, Prod.mk.injEq] at h
      obtain ⟨h1, -⟩ := h
      subst h1
      rfl
  · simp only [Except.ok.injEq, Prod.mk.injEq] at h
    obtain ⟨h1, -⟩ := h
    subst h1
    rfl

theorem dispatchCore_sct (st : ServerState) (now : Int) (call : Call)
    (st2 : ServerState) (resp : Value) (ops : List EnvOp) (d : Bool)
    (h : dispatchCore st now call = .ok (st2, resp, ops, d)) :
    st2.should_close_time =
      if closeTriggerB st call then now + 3 else st.should_close_time := by
  unfold dispatchCore at h
  unfold closeTriggerB
  have okok : ∀ (a : ServerState) (b : Value) (c : List EnvOp) (dd : Bool),
      (Except.ok (a, b, c, dd) : Except (List EnvOp × String)
        (ServerState × Value × List EnvOp × Bool)) = .ok (st2, resp, ops, d) →
      st2 = a := by
    intro a b c dd hh
    simp only [Except.ok.injEq, Prod.mk.injEq] at hh
    exact hh.1.symm
  by_cases hb1 : (st.env.isNone && (call.method != Methods.START)) = true
  · rw [if_pos hb1] at h
    simp only [Bool.and_eq_true] at hb1
    obtain ⟨hn, -⟩ := hb1
    rw [Option.isNone_iff_eq_none] at hn
    rw [okok _ _ _ _ h]
    simp [hn]
  · rw [if_neg hb1] at h
    by_cases hmc : (call.method == Methods.CLOSE) = true
    · rw [if_pos hmc] at h
      rw [okok _ _ _ _ h]
      simp [bne, hmc]
    · rw [if_neg hmc] at h
      by_cases hsc : (match st.env with
          | some e => e.should_close | none => false) = true
      · rw [if_pos hsc] at h
        by_cases h0 : (st.should_close_time == 0) = true
        · rw [if_pos h0] at h
          rw [okok _ _ _ _ h]
          have hmc2 : (call.method == Methods.CLOSE) = false := by
            simpa using hmc
          simp [hsc, h0, bne, hmc2]
        · rw [if_neg h0] at h
          have h0f : (st.should_close_time == 0) = false := by
            simpa using h0
          by_cases hgt : now > st.should_close_time
          · rw [if_pos hgt] at h
            rw [okok _ _ _ _ h]
            simp [h0f]
          · rw [if_neg hgt] at h
            rw [okok _ _ _ _ h]
            simp [h0f]
      · rw [if_neg hsc] at h
        have hscf : (match st.env with
            | some e => e.should_close | none => false) = false := by
          simpa using hsc
        rw [hscf]
        simp only [Bool.false_and, Bool.false_eq_true, if_false]
        by_cases hms : (call.method == Methods.START) = true
        · rw [if_pos hms] at h
          cases hh : handle_start_sim_request st call.kwargs with
          | ok out =>
              obtain ⟨a, b, c⟩ := out
              rw [hh] at h
              rw [okok _ _ _ _ h]
              exact handle_start_sct st call.kwargs a b c hh
          | error e =>
              rw [hh] at h
              exact absurd h (by simp)
        · rw [if_neg hms] at h
          by_cases hm2 : (call.method == Methods.STEP) = true
          · rw [if_pos hm2] at h
            cases henv : st.env with
            | none => rw [henv] at h; exact absurd h (by simp)
            | some e =>
                rw [henv] at h
                simp only at h
                by_cases hj : st.json_mode = true
                · rw [if_pos hj] at h
                  cases hga : get_action call.kwargs with
                  | error er => rw [hga] at h; exact absurd h (by simp)
                  | ok action =>
                      rw [hga] at h
                      simp only at h
                      cases hgs : get_step_response st e action with
                      | error er => rw [hgs] at h; exact absurd h (by simp)
                      | ok r =>
                          rw [hgs] at h
                          rw [okok _ _ _ _ h]
                · rw [if_neg hj] at h
                  cases hargs : call.args with
                  | nil => rw [hargs] at h; exact absurd h (by simp)
                  | cons a tl =>
                      rw [hargs] at h
                      simp only at h
                      cases hgs : get_step_response st e a with
                      | error er => rw [hgs] at h; exact absurd h (by simp)
                      | ok r =>
                          rw [hgs] at h
                          rw [okok _ _ _ _ h]
          · rw [if_neg hm2] at h
            by_cases hm3 : (call.method == Methods.RESET) = true
            · rw [if_pos hm3] at h
              cases henv : st.env with
              | none => rw [henv] at h; exact absurd h (by simp)
              | some e => rw [henv] at h; rw [okok _ _ _ _ h]
            · rw [if_neg hm3] at h
              by_cases hm4 : (call.method == Methods.ACTION_SPACE
                  || call.method == Methods.OBSERVATION_SPACE) = true
              · rw [if_pos hm4] at h
                cases henv : st.env with
                | none => rw [henv] at h; exact absurd h (by simp)
                | some e =>
                    rw [henv] at h
                    simp only at h
                    cases hss : serialize_space e.action_space with
                    | error er => rw [hss] at h; exact absurd h (by simp)
                    | ok v => rw [hss] at h; rw [okok _ _ _ _ h]
              · rw [if_neg hm4] at h
                by_cases hm5 : (call.method == Methods.REWARD_RANGE) = true
                · rw [if_pos hm5] at h
                  cases henv : st.env with
                  | none => rw [henv] at h; exact absurd h (by simp)
                  | some e => rw [henv] at h; rw [okok _ _ _ _ h]
                · rw [if_neg hm5] at h
                  by_cases hm6 : (call.method == Methods.METADATA) = true
                  · rw [if_pos hm6] at h
                    cases henv : st.env with
                    | none => rw [henv] at h; exact absurd h (by simp)
                    | some e => rw [henv] at h; rw [okok _ _ _ _ h]
                  · rw [if_neg hm6] at h
                    by_cases hm7 : (call.method == Methods.CHANGE_CAMERAS) = true
                    · rw [if_pos hm7] at h
                      cases henv : st.env with
                      | none => rw [henv] at h; exact absurd h (by simp)
                      | some e => rw [henv] at h; rw [okok _ _ _ _ h]
                    · rw [if_neg hm7] at h
                      rw [okok _ _ _ _ h]

theorem dispatchCore_trigger (st : ServerState) (now : Int) (call : Call)
    (htr : closeTriggerB st call = true) :
    dispatchCore st now call
      = .ok ({ st with should_close_time := now + 3 },
             .vstr "Simulation closing", [], false) := by
  unfold closeTriggerB at htr
  simp only [Bool.and_eq_true] at htr
  obtain ⟨⟨hsc, hmc⟩, h0⟩ := htr
  cases henv : st.env with
  | none => rw [henv] at hsc; simp at hsc
  | some e =>
      rw [henv] at hsc
      have hmcf : ¬ ((call.method == Methods.CLOSE) = true) := by
        simp only [bne] at hmc
        simp only [Bool.not_eq_true'] at hmc
        simp [hmc]
      unfold dispatchCore
      rw [if_neg (by simp [henv])]
      rw [if_neg hmcf]
      rw [if_pos (by rw [henv]; exact hsc)]
      rw [if_pos h0]
      rw [henv]

/-- C9 (confirmed): the close deadline starts unset (0) at construction; one
dispatch step writes it exactly when `closeTriggerB` holds — a call arrived,
the collaborator reports should-close, the call is not Close, and the
deadline is still unset — and then writes `now + 3`, which is nonzero for
any nonnegative clock; whenever the deadline is already set, no dispatch
step (including raising and hung ones) changes it. -/
theorem C9_theorem (fuel : Nat) (st : ServerState) (now : Int)
    (msg : Option Call) (hnow : 0 ≤ now) :
    ((dispatch fuel st now msg).stateOf.should_close_time =
       match msg with
       | none => st.should_close_time
       | some call =>
           if closeTriggerB st call then now + 3 else st.should_close_time)
    ∧ (∀ (simf : VEntries → Env) (jm : Bool) (sa : Option VEntries),
         (serverInit simf jm sa).should_close_time = 0)
    ∧ (st.should_close_time ≠ 0 →
        (dispatch fuel st now msg).stateOf.should_close_time
          = st.should_close_time)
    ∧ (∀ call, msg = some call → closeTriggerB st call = true →
        (dispatch fuel st now msg).stateOf.should_close_time = now + 3
          ∧ (dispatch fuel st now msg).stateOf.should_close_time ≠ 0) := by
  have main : (dispatch fuel st now msg).stateOf.should_close_time =
      match msg with
      | none => st.should_close_time
      | some call =>
          if closeTriggerB st call then now + 3
          else st.should_close_time := by
    cases msg with
    | none => rfl
    | some call =>
        have hsct : ∀ st1 resp ops dn,
            dispatchCore st now call = .ok (st1, resp, ops, dn) →
            (dispatch fuel st now (some call)).stateOf.should_close_time
              = st1.should_close_time := by
          intro st1 resp ops dn hd
          unfold dispatch
          simp only
          rw [hd]
          simp only
          by_cases hj : st1.json_mode = true
          · rw [if_pos hj]
            cases hjd : simplejsonDumps resp with
            | error e => rfl
            | ok enc => rfl
          · rw [if_neg hj]
            cases hsp : serialize_pyarrow fuel resp
                st1.serialization_errors with
            | none => rfl
            | some p =>
                obtain ⟨enc, errs2⟩ := p
                rfl
        by_cases htr : closeTriggerB st call = true
        · have hd := dispatchCore_trigger st now call htr
          rw [hsct _ _ _ _ hd]
          simp only [htr, if_true]
        · have htrf : closeTriggerB st call = false := by
            simpa using htr
          simp only [htrf, Bool.false_eq_true, if_false]
          cases hd : dispatchCore st now call with
          | error pe =>
              obtain ⟨ops, er⟩ := pe
              unfold dispatch
              simp only
              rw [hd]
              rfl
          | ok out =>
              obtain ⟨st1, resp, ops, dn⟩ := out
              rw [hsct _ _ _ _ hd]
              rw [dispatchCore_sct st now call st1 resp ops dn hd]
              simp [htrf]
  refine ⟨main, fun _ _ _ => rfl, ?_, ?_⟩
  · intro hne
    rw [main]
    cases msg with
    | none => rfl
    | some call =>
        simp only
        unfold closeTriggerB
        have : (st.should_close_time == 0) = false := by
          simpa using hne
        simp [this]
  · intro call hm htr
    subst hm
    rw [main]
    simp only [htr, if_true]
    exact ⟨trivial, by omega⟩

/-- C9 witness: a concrete closing collaborator with deadline unset, at
clock 100, gets its deadline set to 103 (nonzero) by one dispatch. -/
theorem C9_witness :
    (dispatch 1 stClosing 100
        (some ⟨Methods.STEP, [.vint 0], .nil⟩)).stateOf.should_close_time
      = 100 + 3
    ∧ (dispatch 1 stClosing 100
        (some ⟨Methods.STEP, [.vint 0], .nil⟩)).stateOf.should_close_time
      ≠ 0 :=
  (C9_theorem 1 stClosing 100 (some ⟨Methods.STEP, [.vint 0], .nil⟩)
    (by decide)).2.2.2 ⟨Methods.STEP, [.vint 0], .nil⟩ rfl (by rfl)

/-- C5 (amended): `close()` always marks the session closed and tears down
the socket afterwards, whatever the prior state; but it sends the Close
call over the channel only when the session is still open — `_send` rejects
every non-Start method, Close included, once `is_open` is false, so closing
an already-closed session sends nothing. -/
theorem C5_theorem (st : ClientState) (net : NetResult) :
    ((clientClose st net).state.is_open = false)
    ∧ ((clientClose st net).state.socket_open = false)
    ∧ ((clientClose st net).state.last_obz = st.last_obz)
    ∧ (st.is_open = true →
        (clientClose st net).sent = [⟨Methods.CLOSE, [], .nil⟩])
    ∧ (st.is_open = false → (clientClose st net).sent = []) := by
  obtain ⟨so, lo, sr, io⟩ := st
  cases io <;> cases net
  · exact ⟨rfl, rfl, rfl, fun hh => Bool.noConfusion hh, fun _ => rfl⟩
  · exact ⟨rfl, rfl, rfl, fun hh => Bool.noConfusion hh, fun _ => rfl⟩
  · exact ⟨rfl, rfl, rfl, fun _ => rfl, fun hh => Bool.noConfusion hh⟩
  · exact ⟨rfl, rfl, rfl, fun _ => rfl, fun hh => Bool.noConfusion hh⟩

/-- C5 witness: closing an open session sends exactly the Close call and
marks the session closed. -/
theorem C5_witness :
    (clientClose openClient (.reply (.vdict .nil))).sent
        = [⟨Methods.CLOSE, [], .nil⟩]
    ∧ (clientClose openClient (.reply (.vdict .nil))).state.is_open
        = false :=
  ⟨(C5_theorem openClient (.reply (.vdict .nil))).2.2.2.1 rfl,
   (C5_theorem openClient (.reply (.vdict .nil))).1⟩

/-- C5 counterexample: the claim says `close()` sends the Close call for
every session state, including an already-closed one; on a closed session
the guard in `_send` returns before any network send, so nothing is
sent. -/
theorem C5_counterexample :
    (clientClose closedClient (.reply (.vdict .nil))).sent = [] := rfl

/-- C1 (amended): once the session is closed, no public operation but
`close()` performs a network send, and `is_open` never becomes true again
(no operation's post-state is open unless its pre-state was); but the
operations differ in what they return: `reset`, `changeCameras`,
`metadata` and `rewardRange` return a null result, while `step`,
`actionSpace` and `observationSpace` raise a local `TypeError` — `_send`
returns None, which `step` then unpacks and the space accessors
subscript. -/
theorem C1_theorem (st : ClientState) (action cams : Value)
    (net : NetResult) (h : st.is_open = false) :
    (clientStep st action net
       = { state := st, sent := [],
           result := .error "TypeError: cannot unpack non-iterable NoneType" })
    ∧ (clientReset st net = { state := st, sent := [], result := .ok none })
    ∧ (clientChangeCameras st cams net
       = { state := st, sent := [], result := .ok none })
    ∧ (clientActionSpace st net
       = { state := st, sent := [],
           result := .error "TypeError: NoneType is not subscriptable" })
    ∧ (clientObservationSpace st net
       = { state := st, sent := [],
           result := .error "TypeError: NoneType is not subscriptable" })
    ∧ (clientMetadata st net = { state := st, sent := [], result := .ok none })
    ∧ (clientRewardRange st net
       = { state := st, sent := [], result := .ok none })
    ∧ (∀ (st' : ClientState) (a c : Value) (n : NetResult),
        ((clientStep st' a n).state.is_open = true → st'.is_open = true)
        ∧ ((clientReset st' n).state.is_open = true → st'.is_open = true)
        ∧ ((clientChangeCameras st' c n).state.is_open = true →
            st'.is_open = true)
        ∧ ((clientActionSpace st' n).state.is_open = true →
            st'.is_open = true)
        ∧ ((clientObservationSpace st' n).state.is_open = true →
            st'.is_open = true)
        ∧ ((clientMetadata st' n).state.is_open = true → st'.is_open = true)
        ∧ ((clientRewardRange st' n).state.is_open = true →
            st'.is_open = true)
        ∧ ((clientClose st' n).state.is_open = false)) := by
  obtain ⟨so, lo, sr, io⟩ := st
  simp only at h
  subst h
  refine ⟨rfl, rfl, rfl, rfl, rfl, rfl, rfl, ?_⟩
  intro st' a c n
  obtain ⟨so', lo', sr', io'⟩ := st'
  cases io' <;> cases n
  · exact ⟨fun hh => Bool.noConfusion hh, fun hh => Bool.noConfusion hh,
      fun hh => Bool.noConfusion hh, fun hh => Bool.noConfusion hh,
      fun hh => Bool.noConfusion hh, fun hh => Bool.noConfusion hh,
      fun hh => Bool.noConfusion hh, rfl⟩
  · exact ⟨fun hh => Bool.noConfusion hh, fun hh => Bool.noConfusion hh,
      fun hh => Bool.noConfusion hh, fun hh => Bool.noConfusion hh,
      fun hh => Bool.noConfusion hh, fun hh => Bool.noConfusion hh,
      fun hh => Bool.noConfusion hh, rfl⟩
  · exact ⟨fun _ => rfl, fun _ => rfl, fun _ => rfl, fun _ => rfl,
      fun _ => rfl, fun _ => rfl, fun _ => rfl, rfl⟩
  · exact ⟨fun _ => rfl, fun _ => rfl, fun _ => rfl, fun _ => rfl,
      fun _ => rfl, fun _ => rfl, fun _ => rfl, rfl⟩

/-- C1 witness: the theorem applied to a concrete closed client. -/
theorem C1_witness :
    clientReset closedClient (.reply (.vdict .nil))
      = { state := closedClient, sent := [], result := .ok none }
    ∧ clientStep closedClient (.vint 0) (.reply (.vdict .nil))
      = { state := closedClient, sent := [],
          result := .error "TypeError: cannot unpack non-iterable NoneType" } :=
  ⟨(C1_theorem closedClient (.vint 0) (.vlist .nil)
      (.reply (.vdict .nil)) rfl).2.1,
   (C1_theorem closedClient (.vint 0) (.vlist .nil)
      (.reply (.vdict .nil)) rfl).1⟩

/-- C1 counterexample: the claim says every post-close operation but
`close()` returns a null result; `step` on a closed session instead raises
a local `TypeError` (the null from `_send` fails to unpack into the 4-part
step result) — though, as the claim says, nothing is sent. -/
theorem C1_counterexample :
    (clientStep closedClient (.vint 0) (.reply (.vdict .nil))).result
      = .error "TypeError: cannot unpack non-iterable NoneType"
    ∧ (clientStep closedClient (.vint 0) (.reply (.vdict .nil))).sent
      = [] := ⟨rfl, rfl⟩

def envC6 : Env :=
  { should_close := false, step_fn := fun _ => .vnone, reset_val := .vnone,
    action_space := .box (.vint 0) (.vint 1) "float32",
    observation_space := .box (.vint 5) (.vint 6) "uint8",
    reward_range := .vnone, metadata := .vnone,
    change_cameras_fn := fun _ _ => .vnone }

def stC6 : ServerState :=
  { sim := fun _ => envC6, sim_args := none, json_mode := false,
    env := some envC6, serialization_errors := [], should_close_time := 0 }

/-- C6 (code bug, server.py:158-159): both the ActionSpace and the
ObservationSpace branch read `self.env.action_space`, so an
ObservationSpace call returns the descriptor of the action space. Against a
collaborator whose action space is Box(low=0, high=1, float32) and whose
observation space is Box(low=5, high=6, uint8), the ObservationSpace call
answers the action-space descriptor (low 0, high 1, float32), not the
observation-space one. -/
theorem C6_theorem :
    dispatch 1 stC6 0 (some ⟨Methods.OBSERVATION_SPACE, [], .nil⟩)
      = .ok stC6
          (some (.vdict (entriesOf
            [("type", .vstr boxTypeName), ("low", .vint 0),
             ("high", .vint 1), ("dtype", .vstr "float32")])))
          [.vdict (entriesOf
            [("type", .vstr boxTypeName), ("low", .vint 0),
             ("high", .vint 1), ("dtype", .vstr "float32")])]
          [] false
    ∧ envC6.observation_space = .box (.vint 5) (.vint 6) "uint8"
    ∧ (Value.vint 0 ≠ Value.vint 5) :=
  ⟨rfl, rfl, by simp⟩

/-- C10 (amended): with server-side `sim_args`, a Start request creates the
environment from those arguments and answers `locally_configured`, copying
only `path_follower` from the client under the source's guarded condition —
except that when the client supplies a truthy `path_follower` together with
a `map` key while `sim_args` itself has no `map` key, the handler raises a
`KeyError` and no environment is created; with `sim_args = None` the
environment is created from the blacklist-filtered client kwargs and the
answer is `remotely_configured`. -/
theorem C10_theorem (st : ServerState) (kwargs sa : VEntries) :
    (st.sim_args = some sa →
      (((kwargs.containsKey "path_follower"
            && truthy (kwargs.getD "path_follower" .vnone)
            && kwargs.containsKey "map") = true →
         (sa.lookup "map" = none →
            handle_start_sim_request st kwargs = .error "KeyError: map")
         ∧ (∀ mv, sa.lookup "map" = some mv → isEmptyStr mv = false →
            handle_start_sim_request st kwargs
              = .ok ({ st with
                       sim_args := some (sa.insert "path_follower"
                         (kwargs.getD "path_follower" .vnone)),
                       env := some (st.sim (sa.insert "path_follower"
                         (kwargs.getD "path_follower" .vnone))) },
                     startedResp "locally_configured",
                     [.opStart (sa.insert "path_follower"
                       (kwargs.getD "path_follower" .vnone))]))
         ∧ (∀ mv, sa.lookup "map" = some mv → isEmptyStr mv = true →
            handle_start_sim_request st kwargs
              = .ok ({ st with
                       sim_args := some sa,
                       env := some (st.sim sa) },
                     startedResp "locally_configured", [.opStart sa])))
       ∧ ((kwargs.containsKey "path_follower"
            && truthy (kwargs.getD "path_follower" .vnone)
            && kwargs.containsKey "map") = false →
          handle_start_sim_request st kwargs
            = .ok ({ st with env := some (st.sim sa) },
                   startedResp "locally_configured", [.opStart sa]))))
    ∧ (st.sim_args = none →
       handle_start_sim_request st kwargs
         = .ok ({ st with
                  env := some (st.sim (remove_blacklisted_params kwargs)) },
                startedResp "remotely_configured",
                [.opStart (remove_blacklisted_params kwargs)])) := by
  constructor
  · intro hsa
    constructor
    · intro hcond
      refine ⟨?_, ?_, ?_⟩
      · intro hmap
        unfold handle_start_sim_request
        rw [hsa]
        simp only
        rw [if_pos hcond, hmap]
      · intro mv hmap hne
        unfold handle_start_sim_request
        rw [hsa]
        simp only
        rw [if_pos hcond, hmap]
        simp only [hne, Bool.false_eq_true, if_false]
      · intro mv hmap he
        unfold handle_start_sim_request
        rw [hsa]
        simp only
        rw [if_pos hcond, hmap]
        simp only [he, if_true]
    · intro hcond
      unfold handle_start_sim_request
      rw [hsa]
      simp only
      rw [if_neg (by simp [hcond])]
  · intro hsa
    unfold handle_start_sim_request
    rw [hsa]

def stC10 : ServerState :=
  { sim := fun _ => envEx0, sim_args := some .nil, json_mode := false,
    env := none, serialization_errors := [], should_close_time := 0 }

/-- C10 witness: the theorem applied to a server configured with
`sim_args = {map: 'canyons'}` and a client sending a truthy
`path_follower` plus a `map` key: the environment starts from the
server-side arguments with `path_follower` copied in, answering
`locally_configured`; and to a server with no `sim_args`, answering
`remotely_configured` from the filtered client kwargs. -/
theorem C10_witness :
    handle_start_sim_request
        { stC10 with sim_args := some (entriesOf [("map", .vstr "canyons")]) }
        (entriesOf [("path_follower", .vbool true), ("map", .vstr "kevindale")])
      = .ok ({ stC10 with
               sim_args := some (entriesOf
                 [("map", .vstr "canyons"), ("path_follower", .vbool true)]),
               env := some (stC10.sim (entriesOf
                 [("map", .vstr "canyons"), ("path_follower", .vbool true)])) },
             startedResp "locally_configured",
             [.opStart (entriesOf
               [("map", .vstr "canyons"), ("path_follower", .vbool true)])])
    ∧ handle_start_sim_request { stC10 with sim_args := none }
        (entriesOf [("is_remote_client", .vbool true), ("foo", .vint 1)])
      = .ok ({ stC10 with
               sim_args := none,
               env := some (stC10.sim (entriesOf [("foo", .vint 1)])) },
             startedResp "remotely_configured",
             [.opStart (entriesOf [("foo", .vint 1)])]) := by
  constructor
  · have h := ((C10_theorem
      { stC10 with sim_args := some (entriesOf [("map", .vstr "canyons")]) }
      (entriesOf [("path_follower", .vbool true), ("map", .vstr "kevindale")])
      (entriesOf [("map", .vstr "canyons")])).1 rfl).1 (by rfl)
    exact h.2.1 (.vstr "canyons") rfl rfl
  · have h := (C10_theorem { stC10 with sim_args := none }
      (entriesOf [("is_remote_client", .vbool true), ("foo", .vint 1)])
      .nil).2 rfl
    exact h

/-- C10 counterexample: the claim says every Start request against
server-side `sim_args` creates the environment from them; with
`sim_args = {}` (no `map` key) and a client sending a truthy
`path_follower` together with a `map` key, the handler instead raises a
`KeyError` and creates nothing. -/
theorem C10_counterexample :
    handle_start_sim_request stC10
        (entriesOf [("path_follower", .vbool true), ("map", .vstr "canyons")])
      = .error "KeyError: map" := rfl

/- Lemmas about the substitution pass, towards the serialization claims. -/

mutual

theorem firstUnser_none_iff : ∀ (v : Value),
    firstUnserializable v = none ↔ opaqueSet v = ∅
  | .vnone => by simp [firstUnserializable, opaqueSet]
  | .vint _ => by simp [firstUnserializable, opaqueSet]
  | .vfloat _ => by simp [firstUnserializable, opaqueSet]
  | .vbool _ => by simp [firstUnserializable, opaqueSet]
  | .vstr _ => by simp [firstUnserializable, opaqueSet]
  | .varr _ => by simp [firstUnserializable, opaqueSet]
  | .vobj t => by simp [firstUnserializable, opaqueSet]
  | .vlist xs => by
      simpa [firstUnserializable, opaqueSet] using firstUnserL_none_iff xs
  | .vtuple xs => by
      simpa [firstUnserializable, opaqueSet] using firstUnserL_none_iff xs
  | .vdict es => by
      simpa [firstUnserializable, opaqueSet] using firstUnserE_none_iff es

theorem firstUnserL_none_iff : ∀ (xs : VList),
    firstUnserializableL xs = none ↔ opaqueSetL xs = ∅
  | .nil => by simp [firstUnserializableL, opaqueSetL]
  | .cons v tl => by
      cases hf : firstUnserializable v with
      | some t =>
          simp only [firstUnserializableL, opaqueSetL, hf,
            Finset.union_eq_empty]
          constructor
          · intro h; exact Option.noConfusion h
          · intro h
            have hv := (firstUnser_none_iff v).mpr h.1
            rw [hv] at hf
            exact Option.noConfusion hf
      | none =>
          have hv := (firstUnser_none_iff v).mp hf
          simp only [firstUnserializableL, opaqueSetL, hf, hv,
            Finset.union_eq_empty, Finset.empty_union]
          simpa using firstUnserL_none_iff tl

theorem firstUnserE_none_iff : ∀ (es : VEntries),
    firstUnserializableE es = none ↔ opaqueSetE es = ∅
  | .nil => by simp [firstUnserializableE, opaqueSetE]
  | .cons k v tl => by
      cases hf : firstUnserializable v with
      | some t =>
          simp only [firstUnserializableE, opaqueSetE, hf,
            Finset.union_eq_empty]
          constructor
          · intro h; exact Option.noConfusion h
          · intro h
            have hv := (firstUnser_none_iff v).mpr h.1
            rw [hv] at hf
            exact Option.noConfusion hf
      | none =>
          have hv := (firstUnser_none_iff v).mp hf
          simp only [firstUnserializableE, opaqueSetE, hf, hv,
            Finset.union_eq_empty, Finset.empty_union]
          simpa using firstUnserE_none_iff tl

end

mutual

theorem firstUnser_mem : ∀ (v : Value) (t : String),
    firstUnserializable v = some t → t ∈ opaqueSet v
  | .vnone, t => by simp [firstUnserializable]
  | .vint _, t => by simp [firstUnserializable]
  | .vfloat _, t => by simp [firstUnserializable]
  | .vbool _, t => by simp [firstUnserializable]
  | .vstr _, t => by simp [firstUnserializable]
  | .varr _, t => by simp [firstUnserializable]
  | .vobj u, t => by
      intro h
      simp only [firstUnserializable, Option.some.injEq] at h
      subst h
      simp [opaqueSet]
  | .vlist xs, t => by
      intro h
      simp only [firstUnserializable] at h
      simpa [opaqueSet] using firstUnserL_mem xs t h
  | .vtuple xs, t => by
      intro h
      simp only [firstUnserializable] at h
      simpa [opaqueSet] using firstUnserL_mem xs t h
  | .vdict es, t => by
      intro h
      simp only [firstUnserializable] at h
      simpa [opaqueSet] using firstUnserE_mem es t h

theorem firstUnserL_mem : ∀ (xs : VList) (t : String),
    firstUnserializableL xs = some t → t ∈ opaqueSetL xs
  | .nil, t => by simp [firstUnserializableL]
  | .cons v tl, t => by
      intro h
      simp only [firstUnserializableL] at h
      cases hf : firstUnserializable v with
      | some u =>
          rw [hf] at h
          simp only [Option.some.injEq] at h
          subst h
          simp only [opaqueSetL, Finset.mem_union]
          exact Or.inl (firstUnser_mem v u hf)
      | none =>
          rw [hf] at h
          simp only [opaqueSetL, Finset.mem_union]
          exact Or.inr (firstUnserL_mem tl t h)

theorem firstUnserE_mem : ∀ (es : VEntries) (t : String),
    firstUnserializableE es = some t → t ∈ opaqueSetE es
  | .nil, t => by simp [firstUnserializableE]
  | .cons k v tl, t => by
      intro h
      simp only [firstUnserializableE] at h
      cases hf : firstUnserializable v with
      | some u =>
          rw [hf] at h
          simp only [Option.some.injEq] at h
          subst h
          simp only [opaqueSetE, Finset.mem_union]
          exact Or.inl (firstUnser_mem v u hf)
      | none =>
          rw [hf] at h
          simp only [opaqueSetE, Finset.mem_union]
          exact Or.inr (firstUnserE_mem tl t h)

end

/-- A reported unserializable type name (one not carried by any encodable
shape) never equals the type name of a non-object value. -/
theorem typeName_beq_false (t : String) (ht : t ∉ builtinTypeNames)
    (s : String) (hb : s ∈ builtinTypeNames) :
    (s == t) = false := by
  cases hbe : s == t
  · rfl
  · have heq : s = t := by simpa using hbe
    rw [heq] at hb
    exact absurd hb ht

theorem cleanable_vobj {u : String} (h : cleanable (Value.vobj u) = true) :
    False := by simp [cleanable] at h

theorem cleanable_vlist {xs : VList} (h : cleanable (Value.vlist xs) = true) :
    cleanableL xs = true := by
  simp only [cleanable] at h
  exact h

theorem cleanable_vtuple {xs : VList}
    (h : cleanable (Value.vtuple xs) = true) : cleanableL xs = true := by
  simp only [cleanable] at h
  exact h

theorem cleanable_vdict {es : VEntries}
    (h : cleanable (Value.vdict es) = true) : cleanableE es = true := by
  simp only [cleanable] at h
  exact h

theorem cleanableV_vlist {xs : VList}
    (h : cleanableV (Value.vlist xs) = true) :
    cleanable (Value.vlist xs) = true := by
  simpa only [cleanableV] using h

theorem cleanableV_vtuple {xs : VList}
    (h : cleanableV (Value.vtuple xs) = true) :
    cleanable (Value.vtuple xs) = true := by
  simpa only [cleanableV] using h

theorem cleanableV_vdict {es : VEntries}
    (h : cleanableV (Value.vdict es) = true) :
    cleanable (Value.vdict es) = true := by
  simpa only [cleanableV] using h

theorem cleanableL_cons_head {v : Value} {tl : VList}
    (h : cleanableL (VList.cons v tl) = true) : cleanable v = true := by
  simp only [cleanableL, Bool.and_eq_true] at h
  exact h.1

theorem cleanableL_cons_tail {v : Value} {tl : VList}
    (h : cleanableL (VList.cons v tl) = true) : cleanableL tl = true := by
  simp only [cleanableL, Bool.and_eq_true] at h
  exact h.2

theorem cleanableE_cons_val {k : String} {v : Value} {tl : VEntries}
    (h : cleanableE (VEntries.cons k v tl) = true) :
    cleanableV v = true := by
  simp only [cleanableE, Bool.and_eq_true] at h
  exact h.1

theorem cleanableE_cons_tail {k : String} {v : Value} {tl : VEntries}
    (h : cleanableE (VEntries.cons k v tl) = true) : cleanableE tl = true := by
  simp only [cleanableE, Bool.and_eq_true] at h
  exact h.2

mutual

theorem remove_opaqueSet : ∀ (v : Value) (t : String),
    t ∉ builtinTypeNames → cleanable v = true →
    opaqueSet (remove_unserializeables v t) = (opaqueSet v).erase t
  | .vnone, t, ht, hc => by
      simp [remove_unserializeables, opaqueSet, Finset.erase_empty]
  | .vint _, t, ht, hc => by
      simp [remove_unserializeables, opaqueSet, Finset.erase_empty]
  | .vfloat _, t, ht, hc => by
      simp [remove_unserializeables, opaqueSet, Finset.erase_empty]
  | .vbool _, t, ht, hc => by
      simp [remove_unserializeables, opaqueSet, Finset.erase_empty]
  | .vstr _, t, ht, hc => by
      simp [remove_unserializeables, opaqueSet, Finset.erase_empty]
  | .varr _, t, ht, hc => by
      simp [remove_unserializeables, opaqueSet, Finset.erase_empty]
  | .vobj u, t, ht, hc => absurd hc (by simp [cleanable])
  | .vlist xs, t, ht, hc => by
      simp only [remove_unserializeables, opaqueSet]
      exact removeL_opaqueSet xs t ht (cleanable_vlist hc)
  | .vtuple xs, t, ht, hc => by
      simp only [remove_unserializeables, opaqueSet]
      exact removeL_opaqueSet xs t ht (cleanable_vtuple hc)
  | .vdict es, t, ht, hc => by
      simp only [remove_unserializeables, opaqueSet]
      exact removeE_opaqueSet es t ht (cleanable_vdict hc)
termination_by v t ht hc => sizeOf v

theorem removeL_opaqueSet : ∀ (xs : VList) (t : String),
    t ∉ builtinTypeNames → cleanableL xs = true →
    opaqueSetL (removeUnserializeablesL xs t) = (opaqueSetL xs).erase t
  | .nil, t, ht, hc => by
      simp [removeUnserializeablesL, opaqueSetL, Finset.erase_empty]
  | .cons v tl, t, ht, hc => by
      simp only [removeUnserializeablesL, opaqueSetL]
      rw [Finset.erase_union_distrib,
        remove_opaqueSet v t ht (cleanableL_cons_head hc),
        removeL_opaqueSet tl t ht (cleanableL_cons_tail hc)]
termination_by xs t ht hc => sizeOf xs

theorem removeE_opaqueSet : ∀ (es : VEntries) (t : String),
    t ∉ builtinTypeNames → cleanableE es = true →
    opaqueSetE (removeUnserializeablesE es t) = (opaqueSetE es).erase t
  | .nil, t, ht, hc => by
      simp [removeUnserializeablesE, opaqueSetE, Finset.erase_empty]
  | .cons k v tl, t, ht, hc => by
      have hv := cleanableE_cons_val hc
      have htl := cleanableE_cons_tail hc
      simp only [removeUnserializeablesE, opaqueSetE]
      rw [Finset.erase_union_distrib, removeE_opaqueSet tl t ht htl]
      congr 1
      cases v with
      | vobj u =>
          by_cases hu : u = t
          · subst hu
            simp [typeName, opaqueSet, Finset.erase_singleton]
          · have hb : (typeName (Value.vobj u) == t) = false := by
              simp [typeName, hu]
            simp only [hb, Bool.false_eq_true, if_false]
            simp only [remove_unserializeables, opaqueSet]
            exact (Finset.erase_eq_of_not_mem (by
              simp only [Finset.mem_singleton]
              exact fun h => hu h.symm)).symm
      | vnone =>
          have hb : (("<class 'NoneType'>" : String) == t) = false :=
            typeName_beq_false t ht _ (by decide)
          simp only [typeName, hb, Bool.false_eq_true, if_false,
            remove_unserializeables, opaqueSet, Finset.erase_empty]
      | vint n =>
          have hb : (("<class 'int'>" : String) == t) = false :=
            typeName_beq_false t ht _ (by decide)
          simp only [typeName, hb, Bool.false_eq_true, if_false,
            remove_unserializeables, opaqueSet, Finset.erase_empty]
      | vfloat q =>
          have hb : (("<class 'float'>" : String) == t) = false :=
            typeName_beq_false t ht _ (by decide)
          simp only [typeName, hb, Bool.false_eq_true, if_false,
            remove_unserializeables, opaqueSet, Finset.erase_empty]
      | vbool b =>
          have hb : (("<class 'bool'>" : String) == t) = false :=
            typeName_beq_false t ht _ (by decide)
          simp only [typeName, hb, Bool.false_eq_true, if_false,
            remove_unserializeables, opaqueSet, Finset.erase_empty]
      | vstr s =>
          have hb : (("<class 'str'>" : String) == t) = false :=
            typeName_beq_false t ht _ (by decide)
          simp only [typeName, hb, Bool.false_eq_true, if_false,
            remove_unserializeables, opaqueSet, Finset.erase_empty]
      | varr xs =>
          have hb : (("<class 'numpy.ndarray'>" : String) == t) = false :=
            typeName_beq_false t ht _ (by decide)
          simp only [typeName, hb, Bool.false_eq_true, if_false,
            remove_unserializeables, opaqueSet, Finset.erase_empty]
      | vlist xs =>
          have hb : (("<class 'list'>" : String) == t) = false :=
            typeName_beq_false t ht _ (by decide)
          simp only [typeName, hb, Bool.false_eq_true, if_false]
          exact remove_opaqueSet (Value.vlist xs) t ht (cleanableV_vlist hv)
      | vtuple xs =>
          have hb : (("<class 'tuple'>" : String) == t) = false :=
            typeName_beq_false t ht _ (by decide)
          simp only [typeName, hb, Bool.false_eq_true, if_false]
          exact remove_opaqueSet (Value.vtuple xs) t ht
            (cleanableV_vtuple hv)
      | vdict es2 =>
          have hb : (("<class 'dict'>" : String) == t) = false :=
            typeName_beq_false t ht _ (by decide)
          simp only [typeName, hb, Bool.false_eq_true, if_false]
          exact remove_opaqueSet (Value.vdict es2) t ht (cleanableV_vdict hv)
termination_by es t ht hc => sizeOf es

end

mutual

theorem remove_cleanable : ∀ (v : Value) (t : String),
    t ∉ builtinTypeNames → cleanable v = true →
    cleanable (remove_unserializeables v t) = true
  | .vnone, t, ht, hc => by simp only [remove_unserializeables]; exact hc
  | .vint _, t, ht, hc => by simp only [remove_unserializeables]; exact hc
  | .vfloat _, t, ht, hc => by simp only [remove_unserializeables]; exact hc
  | .vbool _, t, ht, hc => by simp only [remove_unserializeables]; exact hc
  | .vstr _, t, ht, hc => by simp only [remove_unserializeables]; exact hc
  | .varr _, t, ht, hc => by simp only [remove_unserializeables]; exact hc
  | .vobj u, t, ht, hc => absurd hc (by simp [cleanable])
  | .vlist xs, t, ht, hc => by
      simp only [remove_unserializeables, cleanable]
      exact removeL_cleanable xs t ht (cleanable_vlist hc)
  | .vtuple xs, t, ht, hc => by
      simp only [remove_unserializeables, cleanable]
      exact removeL_cleanable xs t ht (cleanable_vtuple hc)
  | .vdict es, t, ht, hc => by
      simp only [remove_unserializeables, cleanable]
      exact removeE_cleanable es t ht (cleanable_vdict hc)
termination_by v t ht hc => sizeOf v

theorem removeL_cleanable : ∀ (xs : VList) (t : String),
    t ∉ builtinTypeNames → cleanableL xs = true →
    cleanableL (removeUnserializeablesL xs t) = true
  | .nil, t, ht, hc => by simp [removeUnserializeablesL, cleanableL]
  | .cons v tl, t, ht, hc => by
      simp only [removeUnserializeablesL, cleanableL, Bool.and_eq_true]
      exact ⟨remove_cleanable v t ht (cleanableL_cons_head hc),
             removeL_cleanable tl t ht (cleanableL_cons_tail hc)⟩
termination_by xs t ht hc => sizeOf xs

theorem removeE_cleanable : ∀ (es : VEntries) (t : String),
    t ∉ builtinTypeNames → cleanableE es = true →
    cleanableE (removeUnserializeablesE es t) = true
  | .nil, t, ht, hc => by simp [removeUnserializeablesE, cleanableE]
  | .cons k v tl, t, ht, hc => by
      have hv := cleanableE_cons_val hc
      have htl := cleanableE_cons_tail hc
      simp only [removeUnserializeablesE, cleanableE, Bool.and_eq_true]
      refine ⟨?_, removeE_cleanable tl t ht htl⟩
      by_cases hbt : (typeName v == t) = true
      · rw [if_pos hbt]
        simp [cleanableV, cleanable]
      · rw [if_neg hbt]
        cases v with
        | vobj u => simp [remove_unserializeables, cleanableV]
        | vnone => simp [remove_unserializeables, cleanableV, cleanable]
        | vint n => simp [remove_unserializeables, cleanableV, cleanable]
        | vfloat q => simp [remove_unserializeables, cleanableV, cleanable]
        | vbool b => simp [remove_unserializeables, cleanableV, cleanable]
        | vstr s => simp [remove_unserializeables, cleanableV, cleanable]
        | varr xs => simp [remove_unserializeables, cleanableV, cleanable]
        | vlist xs =>
            simp only [remove_unserializeables, cleanableV, cleanable]
            exact removeL_cleanable xs t ht
              (cleanable_vlist (cleanableV_vlist hv))
        | vtuple xs =>
            simp only [remove_unserializeables, cleanableV, cleanable]
            exact removeL_cleanable xs t ht
              (cleanable_vtuple (cleanableV_vtuple hv))
        | vdict es2 =>
            simp only [remove_unserializeables, cleanableV, cleanable]
            exact removeE_cleanable es2 t ht
              (cleanable_vdict (cleanableV_vdict hv))
termination_by es t ht hc => sizeOf es

end

mutual

theorem remove_eq_replace : ∀ (v : Value) (t : String),
    t ∉ builtinTypeNames → cleanable v = true →
    (∀ u ∈ opaqueSet v, u = t) →
    remove_unserializeables v t = replaceOpaques v
  | .vnone, t, ht, hc, hall => by
      simp [remove_unserializeables, replaceOpaques]
  | .vint _, t, ht, hc, hall => by
      simp [remove_unserializeables, replaceOpaques]
  | .vfloat _, t, ht, hc, hall => by
      simp [remove_unserializeables, replaceOpaques]
  | .vbool _, t, ht, hc, hall => by
      simp [remove_unserializeables, replaceOpaques]
  | .vstr _, t, ht, hc, hall => by
      simp [remove_unserializeables, replaceOpaques]
  | .varr _, t, ht, hc, hall => by
      simp [remove_unserializeables, replaceOpaques]
  | .vobj u, t, ht, hc, hall => absurd hc (by simp [cleanable])
  | .vlist xs, t, ht, hc, hall => by
      simp only [remove_unserializeables, replaceOpaques]
      rw [removeL_eq_replace xs t ht (cleanable_vlist hc)
        (fun u hu => hall u (by simpa [opaqueSet] using hu))]
  | .vtuple xs, t, ht, hc, hall => by
      simp only [remove_unserializeables, replaceOpaques]
      rw [removeL_eq_replace xs t ht (cleanable_vtuple hc)
        (fun u hu => hall u (by simpa [opaqueSet] using hu))]
  | .vdict es, t, ht, hc, hall => by
      simp only [remove_unserializeables, replaceOpaques]
      rw [removeE_eq_replace es t ht (cleanable_vdict hc)
        (fun u hu => hall u (by simpa [opaqueSet] using hu))]
termination_by v t ht hc hall => sizeOf v

theorem removeL_eq_replace : ∀ (xs : VList) (t : String),
    t ∉ builtinTypeNames → cleanableL xs = true →
    (∀ u ∈ opaqueSetL xs, u = t) →
    removeUnserializeablesL xs t = replaceOpaquesL xs
  | .nil, t, ht, hc, hall => by
      simp [removeUnserializeablesL, replaceOpaquesL]
  | .cons v tl, t, ht, hc, hall => by
      simp only [removeUnserializeablesL, replaceOpaquesL]
      rw [remove_eq_replace v t ht (cleanableL_cons_head hc)
            (fun u hu => hall u (by
              simp only [opaqueSetL, Finset.mem_union]
              exact Or.inl hu)),
          removeL_eq_replace tl t ht (cleanableL_cons_tail hc)
            (fun u hu => hall u (by
              simp only [opaqueSetL, Finset.mem_union]
              exact Or.inr hu))]
termination_by xs t ht hc hall => sizeOf xs

theorem removeE_eq_replace : ∀ (es : VEntries) (t : String),
    t ∉ builtinTypeNames → cleanableE es = true →
    (∀ u ∈ opaqueSetE es, u = t) →
    removeUnserializeablesE es t = replaceOpaquesE es
  | .nil, t, ht, hc, hall => by
      simp [removeUnserializeablesE, replaceOpaquesE]
  | .cons k v tl, t, ht, hc, hall => by
      have hv := cleanableE_cons_val hc
      have hhead : (if typeName v == t then
              Value.vstr (markerFor (typeName v))
            else remove_unserializeables v t)
          = replaceOpaquesV v := by
        cases v with
        | vobj u =>
            have hu : u = t := hall u (by
              simp only [opaqueSetE, Finset.mem_union]
              exact Or.inl (by simp [opaqueSet]))
            have hbt : (typeName (Value.vobj u) == t) = true := by
              simp [typeName, hu]
            rw [if_pos hbt]
            simp [typeName, replaceOpaquesV]
        | vnone =>
            have hb : (("<class 'NoneType'>" : String) == t) = false :=
              typeName_beq_false t ht _ (by decide)
            simp only [typeName, hb, Bool.false_eq_true, if_false]
            simp [remove_unserializeables, replaceOpaques, replaceOpaquesV]
        | vint n =>
            have hb : (("<class 'int'>" : String) == t) = false :=
              typeName_beq_false t ht _ (by decide)
            simp only [typeName, hb, Bool.false_eq_true, if_false]
            simp [remove_unserializeables, replaceOpaques, replaceOpaquesV]
        | vfloat q =>
            have hb : (("<class 'float'>" : String) == t) = false :=
              typeName_beq_false t ht _ (by decide)
            simp only [typeName, hb, Bool.false_eq_true, if_false]
            simp [remove_unserializeables, replaceOpaques, replaceOpaquesV]
        | vbool b =>
            have hb : (("<class 'bool'>" : String) == t) = false :=
              typeName_beq_false t ht _ (by decide)
            simp only [typeName, hb, Bool.false_eq_true, if_false]
            simp [remove_unserializeables, replaceOpaques, replaceOpaquesV]
        | vstr str =>
            have hb : (("<class 'str'>" : String) == t) = false :=
              typeName_beq_false t ht _ (by decide)
            simp only [typeName, hb, Bool.false_eq_true, if_false]
            simp [remove_unserializeables, replaceOpaques, replaceOpaquesV]
        | varr xs =>
            have hb : (("<class 'numpy.ndarray'>" : String) == t) = false :=
              typeName_beq_false t ht _ (by decide)
            simp only [typeName, hb, Bool.false_eq_true, if_false]
            simp [remove_unserializeables, replaceOpaques, replaceOpaquesV]
        | vlist xs =>
            have hb : (("<class 'list'>" : String) == t) = false :=
              typeName_beq_false t ht _ (by decide)
            simp only [typeName, hb, Bool.false_eq_true, if_false,
              replaceOpaquesV]
            exact remove_eq_replace (Value.vlist xs) t ht
              (cleanableV_vlist hv)
              (fun u hu => hall u (by
                simp only [opaqueSetE, Finset.mem_union]
                exact Or.inl hu))
        | vtuple xs =>
            have hb : (("<class 'tuple'>" : String) == t) = false :=
              typeName_beq_false t ht _ (by decide)
            simp only [typeName, hb, Bool.false_eq_true, if_false,
              replaceOpaquesV]
            exact remove_eq_replace (Value.vtuple xs) t ht
              (cleanableV_vtuple hv)
              (fun u hu => hall u (by
                simp only [opaqueSetE, Finset.mem_union]
                exact Or.inl hu))
        | vdict es2 =>
            have hb : (("<class 'dict'>" : String) == t) = false :=
              typeName_beq_false t ht _ (by decide)
            simp only [typeName, hb, Bool.false_eq_true, if_false,
              replaceOpaquesV]
            exact remove_eq_replace (Value.vdict es2) t ht
              (cleanableV_vdict hv)
              (fun u hu => hall u (by
                simp only [opaqueSetE, Finset.mem_union]
                exact Or.inl hu))
      have htail := removeE_eq_replace tl t ht (cleanableE_cons_tail hc)
        (fun u hu => hall u (by
          simp only [opaqueSetE, Finset.mem_union]
          exact Or.inr hu))
      simp only [removeUnserializeablesE, replaceOpaquesE, hhead, htail]
termination_by es t ht hc hall => sizeOf es

end

mutual

theorem opaqueCount_zero_iff : ∀ (v : Value),
    opaqueCount v = 0 ↔ opaqueSet v = ∅
  | .vnone => by simp [opaqueCount, opaqueSet]
  | .vint _ => by simp [opaqueCount, opaqueSet]
  | .vfloat _ => by simp [opaqueCount, opaqueSet]
  | .vbool _ => by simp [opaqueCount, opaqueSet]
  | .vstr _ => by simp [opaqueCount, opaqueSet]
  | .varr _ => by simp [opaqueCount, opaqueSet]
  | .vobj u => by simp [opaqueCount, opaqueSet]
  | .vlist xs => by
      simpa [opaqueCount, opaqueSet] using opaqueCountL_zero_iff xs
  | .vtuple xs => by
      simpa [opaqueCount, opaqueSet] using opaqueCountL_zero_iff xs
  | .vdict es => by
      simpa [opaqueCount, opaqueSet] using opaqueCountE_zero_iff es

theorem opaqueCountL_zero_iff : ∀ (xs : VList),
    opaqueCountL xs = 0 ↔ opaqueSetL xs = ∅
  | .nil => by simp [opaqueCountL, opaqueSetL]
  | .cons v tl => by
      simp only [opaqueCountL, opaqueSetL, Nat.add_eq_zero,
        Finset.union_eq_empty]
      exact and_congr (opaqueCount_zero_iff v) (opaqueCountL_zero_iff tl)

theorem opaqueCountE_zero_iff : ∀ (es : VEntries),
    opaqueCountE es = 0 ↔ opaqueSetE es = ∅
  | .nil => by simp [opaqueCountE, opaqueSetE]
  | .cons k v tl => by
      simp only [opaqueCountE, opaqueSetE, Nat.add_eq_zero,
        Finset.union_eq_empty]
      exact and_congr (opaqueCount_zero_iff v) (opaqueCountE_zero_iff tl)

end

mutual

theorem card_le_opaqueCount : ∀ (v : Value),
    (opaqueSet v).card ≤ opaqueCount v
  | .vnone => by simp [opaqueCount, opaqueSet]
  | .vint _ => by simp [opaqueCount, opaqueSet]
  | .vfloat _ => by simp [opaqueCount, opaqueSet]
  | .vbool _ => by simp [opaqueCount, opaqueSet]
  | .vstr _ => by simp [opaqueCount, opaqueSet]
  | .varr _ => by simp [opaqueCount, opaqueSet]
  | .vobj u => by simp [opaqueCount, opaqueSet]
  | .vlist xs => by
      simpa [opaqueCount, opaqueSet] using card_le_opaqueCountL xs
  | .vtuple xs => by
      simpa [opaqueCount, opaqueSet] using card_le_opaqueCountL xs
  | .vdict es => by
      simpa [opaqueCount, opaqueSet] using card_le_opaqueCountE es

theorem card_le_opaqueCountL : ∀ (xs : VList),
    (opaqueSetL xs).card ≤ opaqueCountL xs
  | .nil => by simp [opaqueCountL, opaqueSetL]
  | .cons v tl => by
      simp only [opaqueCountL, opaqueSetL]
      calc (opaqueSet v ∪ opaqueSetL tl).card
          ≤ (opaqueSet v).card + (opaqueSetL tl).card :=
            Finset.card_union_le _ _
        _ ≤ opaqueCount v + opaqueCountL tl :=
            Nat.add_le_add (card_le_opaqueCount v) (card_le_opaqueCountL tl)

theorem card_le_opaqueCountE : ∀ (es : VEntries),
    (opaqueSetE es).card ≤ opaqueCountE es
  | .nil => by simp [opaqueCountE, opaqueSetE]
  | .cons k v tl => by
      simp only [opaqueCountE, opaqueSetE]
      calc (opaqueSet v ∪ opaqueSetE tl).card
          ≤ (opaqueSet v).card + (opaqueSetE tl).card :=
            Finset.card_union_le _ _
        _ ≤ opaqueCount v + opaqueCountE tl :=
            Nat.add_le_add (card_le_opaqueCount v) (card_le_opaqueCountE tl)

end

/-- When every unserializable object sits at a mapping-value position and
carries a genuinely non-encodable type name, the retry loop of
`serialize_pyarrow` needs strictly fewer passes than any fuel exceeding the
number of distinct unserializable type names: each pass eliminates every
occurrence of the reported type. -/
theorem serialize_terminates : ∀ (n : Nat) (v : Value) (errs : List String),
    cleanable v = true → hygienic v → (opaqueSet v).card < n →
    (serialize_pyarrow n v errs).isSome = true := by
  intro n
  induction n with
  | zero => intro v errs _ _ hlt; exact absurd hlt (Nat.not_lt_zero _)
  | succ m ih =>
      intro v errs hc hh hlt
      rw [serialize_pyarrow]
      cases hf : firstUnserializable v with
      | none => simp
      | some t =>
          simp only
          have htmem := firstUnser_mem v t hf
          have htb : t ∉ builtinTypeNames := hh t htmem
          apply ih
          · exact remove_cleanable v t htb hc
          · intro u hu
            rw [remove_opaqueSet v t htb hc] at hu
            exact hh u (Finset.mem_of_mem_erase hu)
          · rw [remove_opaqueSet v t htb hc]
            exact lt_of_lt_of_le (Finset.card_erase_lt_of_mem htmem)
              (Nat.lt_succ_iff.mp hlt)

/-- C2 (amended): the retry loop of `serialize_pyarrow` has no pass cap and
no loud-failure path in the source; when every unserializable value sits at
a mapping-value position (`cleanable`) and unserializable type names do not
collide with encodable ones (`hygienic`, true of every real type), each
failed pass strictly shrinks the set of unencodable type names and the loop
terminates within one pass per distinct unencodable type name plus one; an
unserializable element of a bare list or tuple, however, is never removed
and the loop then spins forever (see the counterexample). -/
theorem C2_theorem (v : Value) (errs : List String)
    (hc : cleanable v = true) (hh : hygienic v) :
    ((serialize_pyarrow ((opaqueSet v).card + 1) v errs).isSome = true)
    ∧ (∀ t, firstUnserializable v = some t →
        (opaqueSet (remove_unserializeables v t)).card
          < (opaqueSet v).card) := by
  constructor
  · exact serialize_terminates _ v errs hc hh (Nat.lt_succ_self _)
  · intro t hf
    have htmem := firstUnser_mem v t hf
    have htb := hh t htmem
    rw [remove_opaqueSet v t htb hc]
    exact Finset.card_erase_lt_of_mem htmem

def vC2good : Value :=
  .vdict (.cons "camera" (.vobj "<class 'socket.socket'>")
    (.cons "speed" (.vint 20) .nil))

/-- C2 witness: a response dict with one unserializable socket value
encodes within two passes. -/
theorem C2_witness :
    (serialize_pyarrow ((opaqueSet vC2good).card + 1) vC2good []).isSome
      = true :=
  (C2_theorem vC2good []
    (by simp [vC2good, cleanable, cleanableE, cleanableV])
    (by decide)).1

def vC2bad : Value := .vlist (.cons (.vobj "<class 'socket.socket'>") .nil)

/-- C2 counterexample: the claim says the loop runs a small bounded number
of passes, each failed pass strictly shrinks the set of unencodable types,
and a still-unencodable value fails loudly. For a response that is a bare
list holding an unserializable object, a failed pass removes nothing (the
pass never replaces list elements), and after 100 passes the loop is still
spinning — it neither returns nor raises. -/
theorem C2_counterexample :
    remove_unserializeables vC2bad "<class 'socket.socket'>" = vC2bad
    ∧ firstUnserializable vC2bad = some "<class 'socket.socket'>"
    ∧ serialize_pyarrow 100 vC2bad [] = none :=
  ⟨rfl, rfl, rfl⟩

/-- C3 (confirmed): a response value whose single unencodable nested field
(the value of a mapping entry, nested under any mix of dicts, lists and
tuples) encodes successfully in the retry loop, with that field replaced in
place by the diagnostic marker string built from the field's runtime type
name (`replaceOpaques`/`markerFor`, the substitution the spec describes);
a response with no unencodable value is returned unchanged by the first
pass. `hygienic` states that unserializable type names do not collide with
the encodable shapes' names, which holds of every real runtime type. -/
theorem C3_theorem (v : Value) (errs : List String) (hh : hygienic v) :
    (opaqueCount v = 1 → cleanable v = true →
       ∃ errs2, serialize_pyarrow 2 v errs
         = some (replaceOpaques v, errs2))
    ∧ (opaqueCount v = 0 → serialize_pyarrow 1 v errs = some (v, errs)) := by
  constructor
  · intro h1 hc
    have hne : opaqueSet v ≠ ∅ := by
      intro he
      rw [← opaqueCount_zero_iff v] at he
      omega
    have hcard1 : (opaqueSet v).card = 1 := by
      have hle := card_le_opaqueCount v
      rw [h1] at hle
      have hpos : 0 < (opaqueSet v).card :=
        Finset.card_pos.mpr (Finset.nonempty_iff_ne_empty.mpr hne)
      omega
    obtain ⟨t, hset⟩ := Finset.card_eq_one.mp hcard1
    cases hf : firstUnserializable v with
    | none =>
        have h0 := (firstUnser_none_iff v).mp hf
        exact absurd h0 hne
    | some t0 =>
        have ht0 : t0 ∈ opaqueSet v := firstUnser_mem v t0 hf
        have htb : t0 ∉ builtinTypeNames := hh t0 ht0
        have hall : ∀ u ∈ opaqueSet v, u = t0 := by
          intro u hu
          rw [hset] at hu ht0
          simp only [Finset.mem_singleton] at hu ht0
          rw [hu, ht0]
        have hrepl := remove_eq_replace v t0 htb hc hall
        have hempty : opaqueSet (remove_unserializeables v t0) = ∅ := by
          rw [remove_opaqueSet v t0 htb hc, hset]
          have ht0t : t0 = t := by
            rw [hset] at ht0
            simpa using ht0
          rw [ht0t]
          exact Finset.erase_singleton t
        have hfnone :
            firstUnserializable (remove_unserializeables v t0) = none :=
          (firstUnser_none_iff _).mpr hempty
        have hfnone2 : firstUnserializable (replaceOpaques v) = none := by
          rw [← hrepl]
          exact hfnone
        show ∃ errs2, serialize_pyarrow (1 + 1) v errs
          = some (replaceOpaques v, errs2)
        rw [serialize_pyarrow]
        simp only [hf]
        rw [serialize_pyarrow]
        simp only [hrepl, hfnone2]
        exact ⟨_, rfl⟩
  · intro h0
    have hempty : opaqueSet v = ∅ := (opaqueCount_zero_iff v).mp h0
    have hf := (firstUnser_none_iff v).mpr hempty
    show serialize_pyarrow (0 + 1) v errs = some (v, errs)
    rw [serialize_pyarrow]
    simp only [hf]

def vC3 : Value :=
  .vdict (.cons "observation"
    (.vlist (.cons (.vdict (.cons "cam"
      (.vobj "<class 'socket.socket'>") .nil)) .nil))
    (.cons "reward" (.vint 7) .nil))

/-- C3 witness: a response whose single unserializable field sits in a dict
nested inside a list inside a dict encodes in two passes, with the field
replaced by the marker string; a fully encodable response is returned
unchanged. -/
theorem C3_witness :
    (∃ errs2, serialize_pyarrow 2 vC3 []
       = some (replaceOpaques vC3, errs2))
    ∧ serialize_pyarrow 1 (Value.vint 7) [] = some (.vint 7, []) :=
  ⟨(C3_theorem vC3 [] (by decide)).1 (by rfl)
     (by simp [vC3, cleanable, cleanableE, cleanableV, cleanableL]),
   (C3_theorem (.vint 7) [] (by decide)).2 (by rfl)⟩
